import Mathlib

/-!
Shallow embedding of the replate orchestration core: the creation sagas
(`addListing`, `addRequest`), cascade deletion (`deleteListing`,
`deleteRequest`), offer acceptance (`acceptOffer`), claiming (`claim`),
and the periodic expiration sweep (`handleListingsExpired`,
`handleRequestsExpired`, composed as `sweepTick`).

The orchestration layer is translated from the TypeScript routes and the
cron sweep.  The domain stores (the `concepts/*` classes: Listing,
Requesting, Listing_Expiring, Request_Expiring, Offering, Claiming,
Tagging) are external collaborators whose implementation is not part of
the orchestration sources; they are modelled from the interface contracts
in the specification (section 6).  Mongo ObjectIds are modelled as `Nat`
drawn from a per-store-state counter `nextId`; date+time expiration
instants are modelled as a single `Nat` instant.  A thrown error is
modelled as an `Option Err` component of the result; the store state is
carried explicitly.
-/

/-- Error taxonomy: NotFound / NotAllowed from the concepts layer, plus
injected secondary-write failures used to model a store call throwing. -/
inductive Err where
  | notFound
  | notAllowed
  | createFailed
  | allocateFailed
  | tagFailed
  deriving DecidableEq

/-- A Listing document: identity, author, descriptive fields, remaining
quantity and the `hidden` visibility bit. -/
structure Listing where
  id : Nat
  author : Nat
  name : String
  meetup_location : String
  image : String
  quantity : Int
  description : String
  tags : List String
  hidden : Bool
  deriving DecidableEq

/-- A Request document: identity, requester, descriptive fields, quantity
and the `hidden` visibility bit. -/
structure Request where
  id : Nat
  requester : Nat
  name : String
  quantity : Int
  image : Option String
  description : Option String
  hidden : Bool
  deriving DecidableEq

/-- An expiration record: references an item by id and carries the target
expiration instant (date + time collapsed to one `Nat` instant). -/
structure ExpireDoc where
  id : Nat
  item : Nat
  date : Nat
  deriving DecidableEq

/-- Offer lifecycle states. -/
inductive OfferState where
  | active
  | accepted
  | removed
  deriving DecidableEq

/-- An Offer document: references the Request it offers to fulfill. -/
structure OfferDoc where
  id : Nat
  item : Nat
  offerer : Nat
  state : OfferState
  deriving DecidableEq

/-- A Claim document: references the claimed Listing and the quantity. -/
structure ClaimDoc where
  id : Nat
  listing : Nat
  claimer : Nat
  quantity : Int
  deriving DecidableEq

/-- The combined persistent state of all domain stores.  Each store owns
its own collection; `nextId` models the allocator of fresh ObjectIds. -/
structure Store where
  listings : List Listing
  requests : List Request
  listingExps : List ExpireDoc
  requestExps : List ExpireDoc
  offers : List OfferDoc
  claims : List ClaimDoc
  tagPairs : List (Nat × String)
  nextId : Nat
  deriving DecidableEq

/-- Modelled from the spec: item store `getById(id) -> Item|NotFound`
for the Listing kind; `none` models the NotFound outcome. -/
def Listing.getListingById (s : Store) (i : Nat) : Option Listing :=
  s.listings.find? (fun l => l.id == i)

/-- Modelled from the spec: item store `create(ownerId, fields) -> Item`
for the Listing kind; a new visible Listing under a fresh id. -/
def Listing.addListing (s : Store) (user : Nat) (name loc image : String)
    (qty : Int) (descr : String) (tags : List String) : Store × Listing :=
  let l : Listing := ⟨s.nextId, user, name, loc, image, qty, descr, tags, false⟩
  ({ s with listings := s.listings ++ [l], nextId := s.nextId + 1 }, l)

/-- Modelled from the spec: item store `delete(id) -> void` for Listings. -/
def Listing.delete (s : Store) (i : Nat) : Store :=
  { s with listings := s.listings.filter (fun l => l.id != i) }

/-- Modelled from the spec: item store `setHidden(id, true) -> void` for
Listings (the source calls it `hideSwitch`). -/
def Listing.hideSwitch (s : Store) (i : Nat) : Store :=
  { s with listings := s.listings.map (fun l => if l.id == i then { l with hidden := true } else l) }

/-- Modelled from the spec: item store `edit(id, partialFields) -> Item`
for Listings; absent optional fields leave the stored value unchanged. -/
def Listing.editlisting (s : Store) (i : Nat) (name loc image : Option String)
    (qty : Option Int) (descr : Option String) (tags : Option (List String)) :
    Store :=
  { s with listings := s.listings.map (fun l => if l.id == i then
          { l with name := name.getD l.name,
                   meetup_location := loc.getD l.meetup_location,
                   image := image.getD l.image,
                   quantity := qty.getD l.quantity,
                   description := descr.getD l.description,
                   tags := tags.getD l.tags }
        else l) }

/-- Modelled from the spec: item store `getById` for the Request kind. -/
def Requesting.getRequestById (s : Store) (i : Nat) : Option Request :=
  s.requests.find? (fun r => r.id == i)

/-- Modelled from the spec: item store `create` for the Request kind. -/
def Requesting.add (s : Store) (user : Nat) (name : String) (qty : Int)
    (image descr : Option String) : Store × Request :=
  let r : Request := ⟨s.nextId, user, name, qty, image, descr, false⟩
  ({ s with requests := s.requests ++ [r], nextId := s.nextId + 1 }, r)

/-- Modelled from the spec: item store `delete(id) -> void` for Requests. -/
def Requesting.delete (s : Store) (i : Nat) : Store :=
  { s with requests := s.requests.filter (fun r => r.id != i) }

/-- Modelled from the spec: item store `setHidden(id, true) -> void` for
Requests (the source calls it `hideSwitch`). -/
def Requesting.hideSwitch (s : Store) (i : Nat) : Store :=
  { s with requests := s.requests.map (fun r => if r.id == i then { r with hidden := true } else r) }

/-- Modelled from the spec: expiration store `getByItem(itemId) ->
Record|None` for the Listing kind. -/
def Listing_Expiring.getExpireByItem (s : Store) (i : Nat) : Option ExpireDoc :=
  s.listingExps.find? (fun e => e.item == i)

/-- Modelled from the spec: expiration store `allocate(itemId, date, time)
-> Record`; at most one active record per item, so allocating when a
record already exists updates that record instead of duplicating. -/
def Listing_Expiring.allocate (s : Store) (item date : Nat) : Store :=
  match s.listingExps.find? (fun e => e.item == item) with
  | some e =>
      { s with listingExps := s.listingExps.map (fun q => if q.id == e.id then { q with date := date } else q) }
  | none =>
      { s with listingExps := s.listingExps ++ [⟨s.nextId, item, date⟩],
               nextId := s.nextId + 1 }

/-- Modelled from the spec: expiration store `delete(recordId) -> void`. -/
def Listing_Expiring.delete (s : Store) (recId : Nat) : Store :=
  { s with listingExps := s.listingExps.filter (fun e => e.id != recId) }

/-- Modelled from the spec: expiration store `getAllExpired(now)` —
records whose target instant is at or before `now`. -/
def Listing_Expiring.getAllExpired (s : Store) (now : Nat) : List ExpireDoc :=
  s.listingExps.filter (fun e => e.date ≤ now)

/-- Modelled from the spec: expiration store `getByItem` for Requests. -/
def Request_Expiring.getExpireByItem (s : Store) (i : Nat) : Option ExpireDoc :=
  s.requestExps.find? (fun e => e.item == i)

/-- Modelled from the spec: expiration store `allocate` for Requests. -/
def Request_Expiring.allocate (s : Store) (item date : Nat) : Store :=
  match s.requestExps.find? (fun e => e.item == item) with
  | some e =>
      { s with requestExps := s.requestExps.map (fun q => if q.id == e.id then { q with date := date } else q) }
  | none =>
      { s with requestExps := s.requestExps ++ [⟨s.nextId, item, date⟩],
               nextId := s.nextId + 1 }

/-- Modelled from the spec: expiration store `delete` for Requests. -/
def Request_Expiring.delete (s : Store) (recId : Nat) : Store :=
  { s with requestExps := s.requestExps.filter (fun e => e.id != recId) }

/-- Modelled from the spec: expiration store `getAllExpired` for Requests. -/
def Request_Expiring.getAllExpired (s : Store) (now : Nat) : List ExpireDoc :=
  s.requestExps.filter (fun e => e.date ≤ now)

/-- Modelled from the spec: offer store `getById(id) -> Offer`. -/
def Offering.getOfferById (s : Store) (i : Nat) : Option OfferDoc :=
  s.offers.find? (fun o => o.id == i)

/-- Modelled from the spec: offer store `accept(id) -> void`, the
active → accepted lifecycle transition. -/
def Offering.accept (s : Store) (i : Nat) : Store :=
  { s with offers := s.offers.map (fun o => if o.id == i then { o with state := OfferState.accepted } else o) }

/-- Modelled from the spec: offer store `removeAllForItem(requestId)` —
removes every Offer referencing the given Request. -/
def Offering.removeAllItemOffers (s : Store) (rid : Nat) : Store :=
  { s with offers := s.offers.filter (fun o => o.item != rid) }

/-- Modelled from the spec: claim store creation; the Claim references
the Listing and carries the claimed quantity. -/
def Claiming.claim (s : Store) (user : Nat) (qty : Int) (lid : Nat) :
    Store × ClaimDoc :=
  let c : ClaimDoc := ⟨s.nextId, lid, user, qty⟩
  ({ s with claims := s.claims ++ [c], nextId := s.nextId + 1 }, c)

/-- Modelled from the spec: tag store `tagItem` — records an item/tag
association pair. -/
def Tagging.tagItem (s : Store) (item : Nat) (tag : String) : Store :=
  { s with tagPairs := s.tagPairs ++ [(item, tag)] }

/-- Failure injection for the creation sagas: which store write throws.
`tagFailAt = some k` makes the k-th `Tagging.tagItem` call throw. -/
structure FailSpec where
  createFails : Bool
  allocateFails : Bool
  tagFailAt : Option Nat
  deriving DecidableEq

/-- The saga's tag loop (`for tag of tags: await Tagging.tagItem`),
with the failure injection point threaded through. -/
def tagLoop (s : Store) (item : Nat) (tags : List String)
    (failAt : Option Nat) (k : Nat) : Store × Option Err :=
  match tags with
  | [] => (s, none)
  | t :: rest =>
      if failAt == some k then (s, some Err.tagFailed)
      else tagLoop (Tagging.tagItem s item t) item rest failAt (k + 1)

/-- Route `addListing`: create the Listing, then its ExpirationRecord,
then the tag associations; the whole sequence sits in one try block whose
catch deletes the created Listing and re-throws the original error. -/
def addListing (s : Store) (user : Nat) (name loc image : String)
    (qty : Int) (expireDate : Nat) (descr : String) (tags : List String)
    (fail : FailSpec) : Store × Option Err :=
  if fail.createFails then (s, some Err.createFailed)
  else
    let p := Listing.addListing s user name loc image qty descr tags
    if fail.allocateFails then
      (Listing.delete p.1 p.2.id, some Err.allocateFailed)
    else
      let s2 := Listing_Expiring.allocate p.1 p.2.id expireDate
      match tagLoop s2 p.2.id tags fail.tagFailAt 0 with
      | (s3, some e) => (Listing.delete s3 p.2.id, some e)
      | (s3, none) => (s3, none)

/-- Route `addRequest`: create the Request then its ExpirationRecord;
on expiration failure delete the created Request and re-throw. -/
def addRequest (s : Store) (user : Nat) (name : String) (qty : Int)
    (needBy : Nat) (image descr : Option String) (fail : FailSpec) :
    Store × Option Err :=
  if fail.createFails then (s, some Err.createFailed)
  else
    let p := Requesting.add s user name qty image descr
    if fail.allocateFails then
      (Requesting.delete p.1 p.2.id, some Err.allocateFailed)
    else
      (Request_Expiring.allocate p.1 p.2.id needBy, none)

/-- Route `deleteListing`: author check, best-effort expiration-record
cleanup (absence is not an error), then delete the Listing. -/
def deleteListing (s : Store) (user : Nat) (i : Nat) : Store × Option Err :=
  match Listing.getListingById s i with
  | none => (s, some Err.notFound)
  | some l =>
      if l.author != user then (s, some Err.notAllowed)
      else
        let s1 := match Listing_Expiring.getExpireByItem s i with
          | some e => Listing_Expiring.delete s e.id
          | none => s
        (Listing.delete s1 i, none)

/-- Route `deleteRequest`: author check, best-effort expiration-record
cleanup, removal of all dependent Offers, then delete the Request. -/
def deleteRequest (s : Store) (user : Nat) (i : Nat) : Store × Option Err :=
  match Requesting.getRequestById s i with
  | none => (s, some Err.notFound)
  | some r =>
      if r.requester != user then (s, some Err.notAllowed)
      else
        let s1 := match Request_Expiring.getExpireByItem s i with
          | some e => Request_Expiring.delete s e.id
          | none => s
        let s2 := Offering.removeAllItemOffers s1 i
        (Requesting.delete s2 i, none)

/-- Route `acceptOffer`: fetch the Offer, hide its parent Request, mark
the Offer accepted; sibling offers are not touched (the removeAll call
is commented out in the source). -/
def acceptOffer (s : Store) (user oid : Nat) : Store × Option Err :=
  match Offering.getOfferById s oid with
  | none => (s, some Err.notFound)
  | some offer =>
      let s1 := Requesting.hideSwitch s offer.item
      (Offering.accept s1 oid, none)

/-- Result of the `claim` route: a created Claim, the insufficient-stock
message, or a thrown error. -/
inductive ClaimOutcome where
  | created (c : ClaimDoc)
  | insufficient
  | failed (e : Err)
  deriving DecidableEq

/-- Route `claim`: if the requested quantity fits, create the Claim,
write back the reduced quantity, and hide the Listing when the claim
consumed the whole remaining quantity; otherwise change nothing and
return a message. -/
def claim (s : Store) (user lid : Nat) (qty : Int) : Store × ClaimOutcome :=
  match Listing.getListingById s lid with
  | none => (s, ClaimOutcome.failed Err.notFound)
  | some listing =>
      if qty ≤ listing.quantity then
        let newQuantity := listing.quantity - qty
        let p := Claiming.claim s user qty lid
        let s2 := Listing.editlisting p.1 lid (some listing.name)
          (some listing.meetup_location) (some listing.image)
          (some newQuantity) none none
        let s3 := if qty == listing.quantity then Listing.hideSwitch s2 lid else s2
        (s3, ClaimOutcome.created p.2)
      else
        (s, ClaimOutcome.insufficient)

/-- One record of the Listing sweep: fetch the referenced Listing; if it
exists and is visible, hide it and delete the record; if it exists and is
already hidden, delete the record only; otherwise do nothing (the source
has no branch for a missing item — the per-item catch swallows a thrown
NotFound and the loop continues). -/
def processExpiredListing (s : Store) (doc : ExpireDoc) : Store :=
  match Listing.getListingById s doc.item with
  | some listing =>
      if !listing.hidden then
        Listing_Expiring.delete (Listing.hideSwitch s doc.item) doc.id
      else
        Listing_Expiring.delete s doc.id
  | none => s

/-- `handleListingsExpired`: snapshot the expired records, then process
each in order against the evolving store. -/
def handleListingsExpired (s : Store) (now : Nat) : Store :=
  (Listing_Expiring.getAllExpired s now).foldl processExpiredListing s

/-- One record of the Request sweep, mirroring `processExpiredListing`. -/
def processExpiredRequest (s : Store) (doc : ExpireDoc) : Store :=
  match Requesting.getRequestById s doc.item with
  | some request =>
      if !request.hidden then
        Request_Expiring.delete (Requesting.hideSwitch s doc.item) doc.id
      else
        Request_Expiring.delete s doc.id
  | none => s

/-- `handleRequestsExpired`: snapshot the expired records, then process
each in order against the evolving store. -/
def handleRequestsExpired (s : Store) (now : Nat) : Store :=
  (Request_Expiring.getAllExpired s now).foldl processExpiredRequest s

/-- One cron tick: the Listing sweep followed by the Request sweep. -/
def sweepTick (s : Store) (now : Nat) : Store :=
  handleRequestsExpired (handleListingsExpired s now) now

/-- Store well-formedness: ids already allocated are below the fresh-id
counter, primary and expiration ids are duplicate-free, and each item has
at most one expiration record (the spec's at-most-one-active invariant). -/
def WF (s : Store) : Prop :=
  (∀ l ∈ s.listings, l.id < s.nextId) ∧
  (∀ r ∈ s.requests, r.id < s.nextId) ∧
  (∀ e ∈ s.listingExps, e.id < s.nextId) ∧
  (∀ e ∈ s.requestExps, e.id < s.nextId) ∧
  (s.listings.map Listing.id).Nodup ∧
  (s.requests.map Request.id).Nodup ∧
  (s.listingExps.map ExpireDoc.id).Nodup ∧
  (s.requestExps.map ExpireDoc.id).Nodup ∧
  (s.listingExps.map ExpireDoc.item).Nodup ∧
  (s.requestExps.map ExpireDoc.item).Nodup

/-! ### Generic lookup lemmas -/

/-- A key-preserving map targeted at key `j` leaves lookups at other keys
unchanged and rewrites the looked-up element at `j`. -/
theorem find?_map_targeted {α : Type} (key : α → Nat) (f : α → α)
    (hf : ∀ x, key (f x) = key x) (xs : List α) (i j : Nat) :
    (xs.map (fun x => if key x == j then f x else x)).find? (fun x => key x == i) =
      if i = j then (xs.find? (fun x => key x == i)).map f
      else xs.find? (fun x => key x == i) := by
  have hpg : ((fun x => key x == i) ∘ fun x => if key x == j then f x else x) =
      (fun x => key x == i) := by
    funext x
    by_cases h : key x = j <;> simp [h, hf]
  rw [List.find?_map, hpg]
  cases hfind : xs.find? (fun x => key x == i) with
  | none => simp
  | some a =>
    have ha : key a = i := by simpa using List.find?_some hfind
    by_cases hij : i = j
    · subst hij
      simp [ha]
    · simp [ha, hij]

/-- Filtering out key `j` removes exactly the lookups at `j`. -/
theorem find?_filter_ne_key {α : Type} (key : α → Nat) (xs : List α) (i j : Nat) :
    (xs.filter (fun x => key x != j)).find? (fun x => key x == i) =
      if i = j then none else xs.find? (fun x => key x == i) := by
  rw [List.find?_filter]
  by_cases hij : i = j
  · subst hij
    rw [if_pos rfl, List.find?_eq_none]
    intro x hx
    simp
  · rw [if_neg hij]
    congr 1
    funext x
    by_cases h : key x = i
    · have hxj : key x ≠ j := fun hj => hij (h ▸ hj)
      simp [h, hxj, hij]
    · simp [h]

/-- A fold step that preserves a predicate preserves it across the fold. -/
theorem foldl_pres {α β : Type} {P : α → Prop} (f : α → β → α)
    (h : ∀ s d, P s → P (f s d)) :
    ∀ (docs : List β) (s : α), P s → P (docs.foldl f s)
  | [], _, hP => hP
  | d :: ds, s, hP => foldl_pres f h ds (f s d) (h s d hP)

/-! ### C1: saga rollback on expiration-record failure -/

/-- C1: in every `addListing`/`addRequest` call where the primary Item is
created but the subsequent ExpirationRecord write fails, the operation
deletes the just-created Item (lookup by its id returns NotFound, i.e.
`none`) and re-raises the original error to the caller. -/
theorem C1_saga_rollback (s : Store) (user : Nat) (name loc image : String)
    (qty : Int) (expireDate : Nat) (descr : String) (tags : List String)
    (rname : String) (rqty : Int) (needBy : Nat) (rimage rdescr : Option String) :
    (addListing s user name loc image qty expireDate descr tags
        ⟨false, true, none⟩).2 = some Err.allocateFailed ∧
    Listing.getListingById
      (addListing s user name loc image qty expireDate descr tags
        ⟨false, true, none⟩).1 s.nextId = none ∧
    (addRequest s user rname rqty needBy rimage rdescr
        ⟨false, true, none⟩).2 = some Err.allocateFailed ∧
    Requesting.getRequestById
      (addRequest s user rname rqty needBy rimage rdescr
        ⟨false, true, none⟩).1 s.nextId = none := by
  refine ⟨rfl, ?_, rfl, ?_⟩
  · simp [addListing, Listing.addListing, Listing.delete, Listing.getListingById,
      List.find?_eq_none, List.mem_filter]
  · simp [addRequest, Requesting.add, Requesting.delete, Requesting.getRequestById,
      List.find?_eq_none, List.mem_filter]

/-! ### Lookup behaviour of the store primitives -/

theorem lookupListing_hideSwitch (s : Store) (i j : Nat) :
    Listing.getListingById (Listing.hideSwitch s j) i =
      if i = j then (Listing.getListingById s i).map (fun l => { l with hidden := true })
      else Listing.getListingById s i :=
  find?_map_targeted Listing.id (fun l => { l with hidden := true })
    (fun _ => rfl) s.listings i j

theorem lookupListing_delete (s : Store) (i j : Nat) :
    Listing.getListingById (Listing.delete s j) i =
      if i = j then none else Listing.getListingById s i :=
  find?_filter_ne_key Listing.id s.listings i j

/-- The per-document field update performed by `Listing.editlisting`. -/
def applyEdit (name loc image : Option String) (qty : Option Int)
    (descr : Option String) (tags : Option (List String)) (l : Listing) : Listing :=
  { l with name := name.getD l.name,
           meetup_location := loc.getD l.meetup_location,
           image := image.getD l.image,
           quantity := qty.getD l.quantity,
           description := descr.getD l.description,
           tags := tags.getD l.tags }

theorem lookupListing_edit (s : Store) (i j : Nat)
    (name loc image : Option String) (qty : Option Int)
    (descr : Option String) (tags : Option (List String)) :
    Listing.getListingById (Listing.editlisting s j name loc image qty descr tags) i =
      if i = j then
        (Listing.getListingById s i).map (applyEdit name loc image qty descr tags)
      else Listing.getListingById s i :=
  find?_map_targeted Listing.id (applyEdit name loc image qty descr tags)
    (fun _ => rfl) s.listings i j

theorem lookupRequest_hideSwitch (s : Store) (i j : Nat) :
    Requesting.getRequestById (Requesting.hideSwitch s j) i =
      if i = j then (Requesting.getRequestById s i).map (fun r => { r with hidden := true })
      else Requesting.getRequestById s i :=
  find?_map_targeted Request.id (fun r => { r with hidden := true })
    (fun _ => rfl) s.requests i j

theorem lookupRequest_delete (s : Store) (i j : Nat) :
    Requesting.getRequestById (Requesting.delete s j) i =
      if i = j then none else Requesting.getRequestById s i :=
  find?_filter_ne_key Request.id s.requests i j

theorem lookupOffer_accept (s : Store) (i j : Nat) :
    Offering.getOfferById (Offering.accept s j) i =
      if i = j then (Offering.getOfferById s i).map
        (fun o => { o with state := OfferState.accepted })
      else Offering.getOfferById s i :=
  find?_map_targeted OfferDoc.id (fun o => { o with state := OfferState.accepted })
    (fun _ => rfl) s.offers i j

/-! ### C10: claim quantity behaviour -/

/-- C10: claiming at most the remaining quantity creates the Claim and
reduces the Listing's quantity by the claimed amount, additionally hiding
the Listing when the whole remaining quantity was claimed; claiming more
than the remaining quantity creates nothing, leaves the store unchanged,
and returns a message rather than raising an error. -/
theorem C10_claim_behaviour (s : Store) (user lid : Nat) (qty : Int)
    (listing : Listing) (hl : Listing.getListingById s lid = some listing) :
    (qty ≤ listing.quantity →
      (claim s user lid qty).2 = ClaimOutcome.created ⟨s.nextId, lid, user, qty⟩ ∧
      (⟨s.nextId, lid, user, qty⟩ : ClaimDoc) ∈ (claim s user lid qty).1.claims ∧
      Listing.getListingById (claim s user lid qty).1 lid =
        some (if qty = listing.quantity
          then { listing with quantity := listing.quantity - qty, hidden := true }
          else { listing with quantity := listing.quantity - qty })) ∧
    (listing.quantity < qty →
      (claim s user lid qty).1 = s ∧
      (claim s user lid qty).2 = ClaimOutcome.insufficient) := by
  constructor
  · intro hq
    have hcl : claim s user lid qty =
        (let p := Claiming.claim s user qty lid
         let s2 := Listing.editlisting p.1 lid (some listing.name)
           (some listing.meetup_location) (some listing.image)
           (some (listing.quantity - qty)) none none
         ((if qty == listing.quantity then Listing.hideSwitch s2 lid else s2),
          ClaimOutcome.created p.2)) := by
      unfold claim
      rw [hl]
      simp [hq]
    rw [hcl]
    refine ⟨rfl, ?_, ?_⟩
    · by_cases heq : qty == listing.quantity <;>
        simp [heq, Listing.hideSwitch, Listing.editlisting, Claiming.claim]
    · by_cases heq : qty = listing.quantity
      · have hb : (qty == listing.quantity) = true := by simp [heq]
        simp only [hb, if_true, if_pos hb]
        rw [lookupListing_hideSwitch, if_pos rfl]
        have h2 : Listing.getListingById
            (Listing.editlisting (Claiming.claim s user qty lid).1 lid
              (some listing.name) (some listing.meetup_location)
              (some listing.image) (some (listing.quantity - qty)) none none) lid =
            some (applyEdit (some listing.name) (some listing.meetup_location)
              (some listing.image) (some (listing.quantity - qty)) none none listing) := by
          rw [lookupListing_edit, if_pos rfl]
          have : Listing.getListingById (Claiming.claim s user qty lid).1 lid =
              Listing.getListingById s lid := rfl
          rw [this, hl]
          rfl
        rw [h2]
        simp [applyEdit, heq]
      · have hb : (qty == listing.quantity) = false := by simp [heq]
        simp only [hb, Bool.false_eq_true, if_false]
        rw [lookupListing_edit, if_pos rfl]
        have : Listing.getListingById (Claiming.claim s user qty lid).1 lid =
            Listing.getListingById s lid := rfl
        rw [this, hl]
        simp [applyEdit, heq]
  · intro hq
    have hnot : ¬(qty ≤ listing.quantity) := not_le.mpr hq
    constructor <;> · unfold claim; rw [hl]; simp [hnot]

/-! ### C5: offer acceptance postcondition -/

/-- C5: a successful `acceptOffer` leaves the parent Request hidden and
the Offer accepted, and leaves any sibling Offer on the same Request
completely unchanged. -/
theorem C5_acceptOffer_postcondition (s : Store) (user oid : Nat)
    (offer osib : OfferDoc) (req : Request) (sib : Nat)
    (ho : Offering.getOfferById s oid = some offer)
    (hr : Requesting.getRequestById s offer.item = some req)
    (hs : Offering.getOfferById s sib = some osib)
    (hsameReq : osib.item = offer.item)
    (hne : sib ≠ oid) :
    (acceptOffer s user oid).2 = none ∧
    Requesting.getRequestById (acceptOffer s user oid).1 offer.item =
      some { req with hidden := true } ∧
    Offering.getOfferById (acceptOffer s user oid).1 oid =
      some { offer with state := OfferState.accepted } ∧
    Offering.getOfferById (acceptOffer s user oid).1 sib = some osib := by
  have hred : acceptOffer s user oid =
      (Offering.accept (Requesting.hideSwitch s offer.item) oid, none) := by
    unfold acceptOffer
    rw [ho]
  rw [hred]
  refine ⟨rfl, ?_, ?_, ?_⟩
  · have h0 : Requesting.getRequestById
        (Offering.accept (Requesting.hideSwitch s offer.item) oid) offer.item =
        Requesting.getRequestById (Requesting.hideSwitch s offer.item) offer.item := rfl
    rw [h0, lookupRequest_hideSwitch, if_pos rfl, hr]
    rfl
  · rw [lookupOffer_accept, if_pos rfl]
    have h0 : Offering.getOfferById (Requesting.hideSwitch s offer.item) oid =
        Offering.getOfferById s oid := rfl
    rw [h0, ho]
    rfl
  · rw [lookupOffer_accept, if_neg hne]
    have h0 : Offering.getOfferById (Requesting.hideSwitch s offer.item) sib =
        Offering.getOfferById s sib := rfl
    rw [h0, hs]

/-! ### C4: cascade completeness of deleteRequest -/

/-- C4: a successful author deletion of a Request leaves zero
ExpirationRecords and zero Offers referencing the Request's id, and the
Request itself is gone.  The statement carries no hypothesis on the
ExpirationRecord: it holds whether a record exists (the case the claim
quantifies over, using the at-most-one-record invariant in `WF`) or not
(absence of a record does not make the deletion fail — the proof splits
on `getExpireByItem` and both branches succeed with the same
guarantees).  The dependent Offers are removed before the primary delete
in the definition, mirroring the source's ordering. -/
theorem C4_deleteRequest_cascade (s : Store) (user rid : Nat)
    (req : Request)
    (hWF : WF s)
    (hr : Requesting.getRequestById s rid = some req)
    (hauth : req.requester = user) :
    (deleteRequest s user rid).2 = none ∧
    ((deleteRequest s user rid).1.requestExps.all (fun e => e.item != rid)) = true ∧
    ((deleteRequest s user rid).1.offers.all (fun o => o.item != rid)) = true ∧
    Requesting.getRequestById (deleteRequest s user rid).1 rid = none := by
  have hb : (req.requester != user) = false := by simp [hauth]
  cases hrec : Request_Expiring.getExpireByItem s rid with
  | some rec =>
    have hred : deleteRequest s user rid =
        (Requesting.delete
          (Offering.removeAllItemOffers (Request_Expiring.delete s rec.id) rid) rid,
         none) := by
      unfold deleteRequest
      rw [hr]
      simp only [hb, Bool.false_eq_true, if_false, hrec]
    rw [hred]
    refine ⟨rfl, ?_, ?_, ?_⟩
    · simp only [List.all_eq_true, bne_iff_ne, ne_eq]
      intro e he
      have he' : e ∈ s.requestExps.filter (fun q => q.id != rec.id) := he
      rw [List.mem_filter] at he'
      obtain ⟨hmem, hid⟩ := he'
      have hrecmem : rec ∈ s.requestExps := List.mem_of_find?_eq_some hrec
      have hrecitem : rec.item = rid := by simpa using List.find?_some hrec
      intro hitem
      obtain ⟨-, -, -, -, -, -, -, -, -, hNodup⟩ := hWF
      have : e = rec := List.inj_on_of_nodup_map hNodup hmem hrecmem
        (by rw [hitem, hrecitem])
      rw [this] at hid
      simp at hid
    · simp only [List.all_eq_true, bne_iff_ne, ne_eq]
      intro o ho
      have ho' : o ∈ ((Request_Expiring.delete s rec.id).offers).filter
          (fun q => q.item != rid) := ho
      rw [List.mem_filter] at ho'
      exact bne_iff_ne.mp ho'.2
    · rw [lookupRequest_delete, if_pos rfl]
  | none =>
    have hred : deleteRequest s user rid =
        (Requesting.delete (Offering.removeAllItemOffers s rid) rid, none) := by
      unfold deleteRequest
      rw [hr]
      simp only [hb, Bool.false_eq_true, if_false, hrec]
    rw [hred]
    refine ⟨rfl, ?_, ?_, ?_⟩
    · simp only [List.all_eq_true, bne_iff_ne, ne_eq]
      intro e he
      have he' : e ∈ s.requestExps := he
      intro hitem
      have hnone : s.requestExps.find? (fun q => q.item == rid) = none := hrec
      rw [List.find?_eq_none] at hnone
      exact hnone e he' (by simp [hitem])
    · simp only [List.all_eq_true, bne_iff_ne, ne_eq]
      intro o ho
      have ho' : o ∈ s.offers.filter (fun q => q.item != rid) := ho
      rw [List.mem_filter] at ho'
      exact bne_iff_ne.mp ho'.2
    · rw [lookupRequest_delete, if_pos rfl]

/-! ### Behaviour of the tag loop and of allocate -/

theorem find?_map_pres {α : Type} (p : α → Bool) (g : α → α)
    (hg : ∀ x, p (g x) = p x) (xs : List α) :
    (xs.map g).find? p = (xs.find? p).map g := by
  have hpg : (p ∘ g) = p := funext hg
  rw [List.find?_map, hpg]

theorem tagLoop_fields (item : Nat) (failAt : Option Nat) :
    ∀ (tags : List String) (s : Store) (k : Nat),
      (tagLoop s item tags failAt k).1.listings = s.listings ∧
      (tagLoop s item tags failAt k).1.listingExps = s.listingExps ∧
      (tagLoop s item tags failAt k).1.requests = s.requests ∧
      (tagLoop s item tags failAt k).1.requestExps = s.requestExps ∧
      (tagLoop s item tags failAt k).1.nextId = s.nextId
  | [], _, _ => ⟨rfl, rfl, rfl, rfl, rfl⟩
  | t :: rest, s, k => by
    unfold tagLoop
    split
    · exact ⟨rfl, rfl, rfl, rfl, rfl⟩
    · exact tagLoop_fields item failAt rest (Tagging.tagItem s item t) (k + 1)

theorem tagLoop_none (item : Nat) :
    ∀ (tags : List String) (s : Store) (k : Nat),
      (tagLoop s item tags none k).2 = none
  | [], _, _ => rfl
  | _ :: rest, s, k => tagLoop_none item rest (Tagging.tagItem s item _) (k + 1)

theorem tagLoop_fail (item : Nat) :
    ∀ (tags : List String) (s : Store) (k off : Nat),
      off ≤ k → k < off + tags.length →
      (tagLoop s item tags (some k) off).2 = some Err.tagFailed := by
  intro tags
  induction tags with
  | nil =>
    intro s k off h1 h2
    simp at h2
    omega
  | cons t rest ih =>
    intro s k off h1 h2
    unfold tagLoop
    by_cases h : k = off
    · subst h
      simp
    · have hlt : off + 1 ≤ k := by omega
      have hb : ((some k : Option Nat) == some off) = false := by
        simp
        omega
      rw [hb]
      simp only [Bool.false_eq_true, if_false]
      exact ih (Tagging.tagItem s item t) k (off + 1) hlt (by simp at h2 ⊢; omega)

theorem allocate_listing_exp_isSome (s : Store) (item date : Nat) :
    (Listing_Expiring.getExpireByItem
      (Listing_Expiring.allocate s item date) item).isSome = true := by
  unfold Listing_Expiring.allocate Listing_Expiring.getExpireByItem
  cases hfind : s.listingExps.find? (fun e => e.item == item) with
  | some e =>
    simp only
    rw [find?_map_pres (fun q => q.item == item)
      (fun q => if q.id == e.id then { q with date := date } else q)
      (fun q => by by_cases h : (q.id == e.id) = true <;> simp [h]) s.listingExps]
    rw [hfind]
    rfl
  | none =>
    simp [List.find?_append, hfind]

theorem allocate_request_exp_isSome (s : Store) (item date : Nat) :
    (Request_Expiring.getExpireByItem
      (Request_Expiring.allocate s item date) item).isSome = true := by
  unfold Request_Expiring.allocate Request_Expiring.getExpireByItem
  cases hfind : s.requestExps.find? (fun e => e.item == item) with
  | some e =>
    simp only
    rw [find?_map_pres (fun q => q.item == item)
      (fun q => if q.id == e.id then { q with date := date } else q)
      (fun q => by by_cases h : (q.id == e.id) = true <;> simp [h]) s.requestExps]
    rw [hfind]
    rfl
  | none =>
    simp [List.find?_append, hfind]

/-! ### C7 and C8: tag-association failure behaviour -/

/-- An initial store with all collections empty. -/
def emptyStore : Store := ⟨[], [], [], [], [], [], [], 0⟩

/-- Whether some listing expiration record references a Listing that does
not exist (an orphaned record). -/
def orphanedListingExp (s : Store) : Bool :=
  s.listingExps.any (fun e => (Listing.getListingById s e.item).isNone)

/-- C7 counterexample: with the Listing and its ExpirationRecord both
created and the first tag write failing, the call raises the tag error
and the Listing has been rolled back (lookup by its id is `none`), so the
tag failure is neither non-fatal nor uncompensated as the claim states. -/
theorem C7_counterexample :
    (addListing emptyStore 7 "apples" "hall" "img" 1 5 "fresh" ["veg"]
      ⟨false, false, some 0⟩).2 = some Err.tagFailed ∧
    Listing.getListingById
      (addListing emptyStore 7 "apples" "hall" "img" 1 5 "fresh" ["veg"]
        ⟨false, false, some 0⟩).1 0 = none := by
  decide

/-- C7 amended: a failure in the tag-association step after the Item and
ExpirationRecord were created is fatal and is compensated exactly like an
expiration failure — the Listing is deleted and the error is re-raised —
while the already-created ExpirationRecord is left behind. -/
theorem C7_amended_tag_failure_rolls_back (s : Store) (user : Nat)
    (name loc image : String) (qty : Int) (expireDate : Nat) (descr : String)
    (tags : List String) (k : Nat) (hk : k < tags.length) :
    (addListing s user name loc image qty expireDate descr tags
      ⟨false, false, some k⟩).2 = some Err.tagFailed ∧
    Listing.getListingById
      (addListing s user name loc image qty expireDate descr tags
        ⟨false, false, some k⟩).1 s.nextId = none ∧
    (Listing_Expiring.getExpireByItem
      (addListing s user name loc image qty expireDate descr tags
        ⟨false, false, some k⟩).1 s.nextId).isSome = true := by
  have hfields := tagLoop_fields s.nextId (some k) tags
    (Listing_Expiring.allocate
      (Listing.addListing s user name loc image qty descr tags).1 s.nextId expireDate) 0
  have hfail := tagLoop_fail s.nextId tags
    (Listing_Expiring.allocate
      (Listing.addListing s user name loc image qty descr tags).1 s.nextId expireDate)
    k 0 (Nat.zero_le k) (by simpa using hk)
  rcases htl : tagLoop
      (Listing_Expiring.allocate
        (Listing.addListing s user name loc image qty descr tags).1 s.nextId expireDate)
      s.nextId tags (some k) 0 with ⟨s3, oe⟩
  have hoe : oe = some Err.tagFailed := by rw [htl] at hfail; exact hfail
  subst hoe
  have hred : addListing s user name loc image qty expireDate descr tags
      ⟨false, false, some k⟩ = (Listing.delete s3 s.nextId, some Err.tagFailed) := by
    unfold addListing
    simp only [Bool.false_eq_true, if_false]
    rw [show (Listing.addListing s user name loc image qty descr tags).2.id =
      s.nextId from rfl]
    rw [htl]
  rw [hred]
  refine ⟨rfl, ?_, ?_⟩
  · rw [lookupListing_delete, if_pos rfl]
  · have hexps : s3.listingExps =
        (Listing_Expiring.allocate
          (Listing.addListing s user name loc image qty descr tags).1
          s.nextId expireDate).listingExps := by
      rw [htl] at hfields
      exact hfields.2.1
    have h0 : Listing_Expiring.getExpireByItem (Listing.delete s3 s.nextId) s.nextId =
        Listing_Expiring.getExpireByItem s3 s.nextId := rfl
    rw [h0]
    unfold Listing_Expiring.getExpireByItem
    rw [hexps]
    exact allocate_listing_exp_isSome _ s.nextId expireDate

/-- C8 counterexample: a failing `addListing` call (tag write fails after
Item and ExpirationRecord creation) leaves behind an ExpirationRecord
that references a Listing that no longer exists, contradicting the
no-orphans part of the claim. -/
theorem C8_counterexample :
    (addListing emptyStore 7 "apples" "hall" "img" 1 5 "fresh" ["veg"]
      ⟨false, false, some 0⟩).2.isSome = true ∧
    orphanedListingExp
      (addListing emptyStore 7 "apples" "hall" "img" 1 5 "fresh" ["veg"]
        ⟨false, false, some 0⟩).1 = true := by
  decide

/-- C8 amended: for every failing creation call whose failure is not in
the tag-association step — any failing `addRequest`, and every
`addListing` failure in the create or expiration step — the primary Item
never existed or has been removed, and no ExpirationRecord references a
missing Item afterwards (assuming none did before); only a tag-step
failure produces the orphaned record shown in the counterexample. -/
theorem C8_amended_no_orphan_without_tag_failure (s : Store) (user : Nat)
    (name loc image : String) (qty : Int) (expireDate : Nat) (descr : String)
    (tags : List String) (c a : Bool)
    (rname : String) (rqty : Int) (needBy : Nat) (rimage rdescr : Option String)
    (fail2 : FailSpec)
    (hWF : WF s)
    (hL : s.listingExps.all
      (fun e => (Listing.getListingById s e.item).isSome) = true)
    (hR : s.requestExps.all
      (fun e => (Requesting.getRequestById s e.item).isSome) = true) :
    ((addListing s user name loc image qty expireDate descr tags
        ⟨c, a, none⟩).2.isSome = true →
      Listing.getListingById
        (addListing s user name loc image qty expireDate descr tags
          ⟨c, a, none⟩).1 s.nextId = none ∧
      (addListing s user name loc image qty expireDate descr tags
          ⟨c, a, none⟩).1.listingExps.all
        (fun e => (Listing.getListingById
          (addListing s user name loc image qty expireDate descr tags
            ⟨c, a, none⟩).1 e.item).isSome) = true) ∧
    ((addRequest s user rname rqty needBy rimage rdescr fail2).2.isSome = true →
      Requesting.getRequestById
        (addRequest s user rname rqty needBy rimage rdescr fail2).1 s.nextId = none ∧
      (addRequest s user rname rqty needBy rimage rdescr fail2).1.requestExps.all
        (fun e => (Requesting.getRequestById
          (addRequest s user rname rqty needBy rimage rdescr fail2).1
            e.item).isSome) = true) := by
  obtain ⟨hWl, hWr, -, -, -, -, -, -, -, -⟩ := hWF
  have hfreshL : Listing.getListingById s s.nextId = none := by
    show s.listings.find? (fun l => l.id == s.nextId) = none
    apply List.find?_eq_none.mpr
    intro x hx
    have := hWl x hx
    simp
    omega
  have hfreshR : Requesting.getRequestById s s.nextId = none := by
    show s.requests.find? (fun r => r.id == s.nextId) = none
    apply List.find?_eq_none.mpr
    intro x hx
    have := hWr x hx
    simp
    omega
  constructor
  · intro herr
    cases c with
    | true => exact ⟨hfreshL, hL⟩
    | false =>
      cases a with
      | true =>
        constructor
        · exact lookupListing_delete
            (Listing.addListing s user name loc image qty descr tags).1
            s.nextId s.nextId ▸ (if_pos rfl)
        · rw [List.all_eq_true]
          intro e he
          have he' : e ∈ s.listingExps := he
          have hsome : (Listing.getListingById s e.item).isSome = true :=
            (List.all_eq_true.mp hL) e he'
          rw [Option.isSome_iff_exists] at hsome
          obtain ⟨l, hl⟩ := hsome
          have hlmem : l ∈ s.listings := List.mem_of_find?_eq_some hl
          have hlid : l.id = e.item := by simpa using List.find?_some hl
          show (((s.listings ++
            [(⟨s.nextId, user, name, loc, image, qty, descr, tags, false⟩ : Listing)]).filter
              (fun x => x.id != s.nextId)).find?
                (fun x => x.id == e.item)).isSome = true
          rw [List.find?_isSome]
          refine ⟨l, ?_, by simp [hlid]⟩
          rw [List.mem_filter]
          refine ⟨List.mem_append_left _ hlmem, ?_⟩
          have := hWl l hlmem
          simp
          omega
      | false =>
        exfalso
        rcases htl : tagLoop
            (Listing_Expiring.allocate
              (Listing.addListing s user name loc image qty descr tags).1
              s.nextId expireDate)
            s.nextId tags none 0 with ⟨s3, oe⟩
        have hnone : oe = none := by
          have := tagLoop_none s.nextId tags
            (Listing_Expiring.allocate
              (Listing.addListing s user name loc image qty descr tags).1
              s.nextId expireDate) 0
          rw [htl] at this
          exact this
        subst hnone
        have hred : (addListing s user name loc image qty expireDate descr tags
            ⟨false, false, none⟩).2 = none := by
          unfold addListing
          simp only [Bool.false_eq_true, if_false]
          rw [show (Listing.addListing s user name loc image qty descr tags).2.id =
            s.nextId from rfl]
          rw [htl]
        rw [hred] at herr
        simp at herr
  · intro herr
    rcases fail2 with ⟨c2, a2, t2⟩
    cases c2 with
    | true => exact ⟨hfreshR, hR⟩
    | false =>
      cases a2 with
      | true =>
        constructor
        · exact lookupRequest_delete
            (Requesting.add s user rname rqty rimage rdescr).1
            s.nextId s.nextId ▸ (if_pos rfl)
        · rw [List.all_eq_true]
          intro e he
          have he' : e ∈ s.requestExps := he
          have hsome : (Requesting.getRequestById s e.item).isSome = true :=
            (List.all_eq_true.mp hR) e he'
          rw [Option.isSome_iff_exists] at hsome
          obtain ⟨r, hr⟩ := hsome
          have hrmem : r ∈ s.requests := List.mem_of_find?_eq_some hr
          have hrid : r.id = e.item := by simpa using List.find?_some hr
          show (((s.requests ++
            [(⟨s.nextId, user, rname, rqty, rimage, rdescr, false⟩ : Request)]).filter
              (fun x => x.id != s.nextId)).find?
                (fun x => x.id == e.item)).isSome = true
          rw [List.find?_isSome]
          refine ⟨r, ?_, by simp [hrid]⟩
          rw [List.mem_filter]
          refine ⟨List.mem_append_left _ hrmem, ?_⟩
          have := hWr r hrmem
          simp
          omega
      | false =>
        exfalso
        have hred : (addRequest s user rname rqty needBy rimage rdescr
            ⟨false, false, t2⟩).2 = none := rfl
        rw [hred] at herr
        simp at herr

/-! ### Sweep machinery: equations for one processed record -/

theorem procL_eq_none (s : Store) (d : ExpireDoc)
    (h : Listing.getListingById s d.item = none) :
    processExpiredListing s d = s := by
  unfold processExpiredListing
  rw [h]

theorem procL_eq_hide (s : Store) (d : ExpireDoc) (l : Listing)
    (h : Listing.getListingById s d.item = some l) (hh : l.hidden = false) :
    processExpiredListing s d =
      Listing_Expiring.delete (Listing.hideSwitch s d.item) d.id := by
  unfold processExpiredListing
  rw [h]
  simp [hh]

theorem procL_eq_clean (s : Store) (d : ExpireDoc) (l : Listing)
    (h : Listing.getListingById s d.item = some l) (hh : l.hidden = true) :
    processExpiredListing s d = Listing_Expiring.delete s d.id := by
  unfold processExpiredListing
  rw [h]
  simp [hh]

theorem procR_eq_none (s : Store) (d : ExpireDoc)
    (h : Requesting.getRequestById s d.item = none) :
    processExpiredRequest s d = s := by
  unfold processExpiredRequest
  rw [h]

theorem procR_eq_hide (s : Store) (d : ExpireDoc) (r : Request)
    (h : Requesting.getRequestById s d.item = some r) (hh : r.hidden = false) :
    processExpiredRequest s d =
      Request_Expiring.delete (Requesting.hideSwitch s d.item) d.id := by
  unfold processExpiredRequest
  rw [h]
  simp [hh]

theorem procR_eq_clean (s : Store) (d : ExpireDoc) (r : Request)
    (h : Requesting.getRequestById s d.item = some r) (hh : r.hidden = true) :
    processExpiredRequest s d = Request_Expiring.delete s d.id := by
  unfold processExpiredRequest
  rw [h]
  simp [hh]

/-! ### Sweep machinery: listing side -/

/-- The tracked value of a swept Listing: the stored document is either
the original or its hidden version. -/
def trackL (s : Store) (i : Nat) (m : Listing) : Prop :=
  Listing.getListingById s i = some m ∨
  Listing.getListingById s i = some { m with hidden := true }

theorem hide_id_of_hidden (m : Listing) (hm : m.hidden = true) :
    ({ m with hidden := true } : Listing) = m := by
  cases m
  simp only at hm
  rw [hm]

theorem procL_track (s : Store) (d : ExpireDoc) (i : Nat) (m : Listing)
    (h : trackL s i m) : trackL (processExpiredListing s d) i m := by
  cases hscrut : Listing.getListingById s d.item with
  | none => rw [procL_eq_none s d hscrut]; exact h
  | some l =>
    cases hl : l.hidden with
    | true => rw [procL_eq_clean s d l hscrut hl]; exact h
    | false =>
      rw [procL_eq_hide s d l hscrut hl]
      unfold trackL at h ⊢
      rw [show Listing.getListingById
        (Listing_Expiring.delete (Listing.hideSwitch s d.item) d.id) i =
        Listing.getListingById (Listing.hideSwitch s d.item) i from rfl]
      rw [lookupListing_hideSwitch]
      by_cases hij : i = d.item
      · rw [if_pos hij]
        cases h with
        | inl h => right; rw [h]; rfl
        | inr h => right; rw [h]; rfl
      · rw [if_neg hij]; exact h

theorem procL_post (s : Store) (d : ExpireDoc) (i : Nat) (m : Listing)
    (hm : m.hidden = true) (h : Listing.getListingById s i = some m) :
    Listing.getListingById (processExpiredListing s d) i = some m := by
  cases hscrut : Listing.getListingById s d.item with
  | none => rw [procL_eq_none s d hscrut]; exact h
  | some l =>
    cases hl : l.hidden with
    | true => rw [procL_eq_clean s d l hscrut hl]; exact h
    | false =>
      rw [procL_eq_hide s d l hscrut hl]
      rw [show Listing.getListingById
        (Listing_Expiring.delete (Listing.hideSwitch s d.item) d.id) i =
        Listing.getListingById (Listing.hideSwitch s d.item) i from rfl]
      rw [lookupListing_hideSwitch]
      by_cases hij : i = d.item
      · exfalso
        rw [hij, hscrut] at h
        injection h with h
        rw [← h] at hm
        rw [hl] at hm
        cases hm
      · rw [if_neg hij]; exact h

theorem procL_lookup_none_iff (s : Store) (d : ExpireDoc) (i : Nat) :
    Listing.getListingById (processExpiredListing s d) i = none ↔
    Listing.getListingById s i = none := by
  cases hscrut : Listing.getListingById s d.item with
  | none => rw [procL_eq_none s d hscrut]
  | some l =>
    cases hl : l.hidden with
    | true => rw [procL_eq_clean s d l hscrut hl]; exact Iff.rfl
    | false =>
      rw [procL_eq_hide s d l hscrut hl]
      rw [show Listing.getListingById
        (Listing_Expiring.delete (Listing.hideSwitch s d.item) d.id) i =
        Listing.getListingById (Listing.hideSwitch s d.item) i from rfl]
      rw [lookupListing_hideSwitch]
      by_cases hij : i = d.item
      · rw [if_pos hij]
        simp
      · rw [if_neg hij]

theorem procL_exps_sub (s : Store) (d : ExpireDoc) (e : ExpireDoc)
    (he : e ∈ (processExpiredListing s d).listingExps) : e ∈ s.listingExps := by
  revert he
  cases hscrut : Listing.getListingById s d.item with
  | none => rw [procL_eq_none s d hscrut]; exact id
  | some l =>
    cases hl : l.hidden with
    | true =>
      rw [procL_eq_clean s d l hscrut hl]
      intro he
      exact (List.mem_filter.mp he).1
    | false =>
      rw [procL_eq_hide s d l hscrut hl]
      intro he
      exact (List.mem_filter.mp he).1

theorem procL_absent (s : Store) (d : ExpireDoc) (rid : Nat)
    (h : ∀ e ∈ s.listingExps, e.id ≠ rid) :
    ∀ e ∈ (processExpiredListing s d).listingExps, e.id ≠ rid :=
  fun e he => h e (procL_exps_sub s d e he)

theorem procL_absent_of_found (s : Store) (d : ExpireDoc) (l : Listing)
    (h : Listing.getListingById s d.item = some l) :
    ∀ e ∈ (processExpiredListing s d).listingExps, e.id ≠ d.id := by
  cases hl : l.hidden with
  | true =>
    rw [procL_eq_clean s d l h hl]
    intro e he
    exact bne_iff_ne.mp (List.mem_filter.mp he).2
  | false =>
    rw [procL_eq_hide s d l h hl]
    intro e he
    exact bne_iff_ne.mp (List.mem_filter.mp he).2

theorem procL_processed (s : Store) (d : ExpireDoc) (m : Listing)
    (h : trackL s d.item m) :
    Listing.getListingById (processExpiredListing s d) d.item =
      some { m with hidden := true } ∧
    ∀ e ∈ (processExpiredListing s d).listingExps, e.id ≠ d.id := by
  cases h with
  | inl h =>
    cases hm : m.hidden with
    | false =>
      rw [procL_eq_hide s d m h hm]
      constructor
      · rw [show Listing.getListingById
          (Listing_Expiring.delete (Listing.hideSwitch s d.item) d.id) d.item =
          Listing.getListingById (Listing.hideSwitch s d.item) d.item from rfl]
        rw [lookupListing_hideSwitch, if_pos rfl, h]
        rfl
      · rw [← procL_eq_hide s d m h hm]
        exact procL_absent_of_found s d m h
    | true =>
      rw [procL_eq_clean s d m h hm]
      constructor
      · rw [hide_id_of_hidden m hm]
        exact h
      · rw [← procL_eq_clean s d m h hm]
        exact procL_absent_of_found s d m h
  | inr h =>
    rw [procL_eq_clean s d { m with hidden := true } h rfl]
    constructor
    · exact h
    · rw [← procL_eq_clean s d { m with hidden := true } h rfl]
      exact procL_absent_of_found s d { m with hidden := true } h

theorem foldL_track (docs : List ExpireDoc) (s : Store) (i : Nat) (m : Listing)
    (h : trackL s i m) :
    trackL (docs.foldl processExpiredListing s) i m :=
  foldl_pres processExpiredListing (fun s d h => procL_track s d i m h) docs s h

theorem foldL_post (docs : List ExpireDoc) (s : Store) (i : Nat) (m : Listing)
    (hm : m.hidden = true) (h : Listing.getListingById s i = some m) :
    Listing.getListingById (docs.foldl processExpiredListing s) i = some m :=
  foldl_pres processExpiredListing (fun s d h => procL_post s d i m hm h) docs s h

theorem foldL_absent (docs : List ExpireDoc) (s : Store) (rid : Nat)
    (h : ∀ e ∈ s.listingExps, e.id ≠ rid) :
    ∀ e ∈ (docs.foldl processExpiredListing s).listingExps, e.id ≠ rid :=
  foldl_pres processExpiredListing (fun s d h => procL_absent s d rid h) docs s h

theorem foldL_sub (docs : List ExpireDoc) :
    ∀ (s : Store) (e : ExpireDoc),
      e ∈ (docs.foldl processExpiredListing s).listingExps → e ∈ s.listingExps := by
  induction docs with
  | nil => intro s e he; exact he
  | cons d ds ih =>
    intro s e he
    rw [List.foldl_cons] at he
    exact procL_exps_sub s d e (ih (processExpiredListing s d) e he)

theorem foldL_none_iff (docs : List ExpireDoc) :
    ∀ (s : Store) (i : Nat),
      Listing.getListingById (docs.foldl processExpiredListing s) i = none ↔
      Listing.getListingById s i = none := by
  induction docs with
  | nil => intro s i; exact Iff.rfl
  | cons d ds ih =>
    intro s i
    rw [List.foldl_cons]
    exact (ih (processExpiredListing s d) i).trans (procL_lookup_none_iff s d i)

theorem foldL_converge (docs : List ExpireDoc) :
    ∀ (s : Store) (d : ExpireDoc) (m : Listing), d ∈ docs → trackL s d.item m →
      Listing.getListingById (docs.foldl processExpiredListing s) d.item =
        some { m with hidden := true } ∧
      ∀ e ∈ (docs.foldl processExpiredListing s).listingExps, e.id ≠ d.id := by
  induction docs with
  | nil => intro s d m hd; cases hd
  | cons d0 ds ih =>
    intro s d m hd htrack
    rw [List.foldl_cons]
    rcases List.mem_cons.mp hd with heq | hmem
    · subst heq
      have h8 := procL_processed s d m htrack
      exact ⟨foldL_post ds (processExpiredListing s d) d.item _ rfl h8.1,
        foldL_absent ds (processExpiredListing s d) d.id h8.2⟩
    · exact ih (processExpiredListing s d0) d m hmem (procL_track s d0 d.item m htrack)

theorem foldL_survivor_stale (docs : List ExpireDoc) :
    ∀ (s : Store) (d : ExpireDoc), d ∈ docs →
      d ∈ (docs.foldl processExpiredListing s).listingExps →
      Listing.getListingById (docs.foldl processExpiredListing s) d.item = none := by
  induction docs with
  | nil => intro s d hd; cases hd
  | cons d0 ds ih =>
    intro s d hd hfin
    rw [List.foldl_cons] at hfin ⊢
    rcases List.mem_cons.mp hd with heq | hmem
    · subst heq
      cases hscrut : Listing.getListingById s d.item with
      | some l =>
        exfalso
        have hin : d ∈ (processExpiredListing s d).listingExps :=
          foldL_sub ds (processExpiredListing s d) d hfin
        exact procL_absent_of_found s d l hscrut d hin rfl
      | none =>
        rw [procL_eq_none s d hscrut] at hfin ⊢
        exact (foldL_none_iff ds s d.item).mpr hscrut
    · exact ih (processExpiredListing s d0) d hmem hfin

theorem foldL_all_stale_id (docs : List ExpireDoc) :
    ∀ (s : Store), (∀ e ∈ docs, Listing.getListingById s e.item = none) →
      docs.foldl processExpiredListing s = s := by
  induction docs with
  | nil => intro s _; rfl
  | cons d ds ih =>
    intro s h
    rw [List.foldl_cons, procL_eq_none s d (h d (List.mem_cons_self d ds))]
    exact ih s (fun e he => h e (List.mem_cons_of_mem d he))

theorem foldL_stale_pres (docs : List ExpireDoc) :
    ∀ (t : Store) (d : ExpireDoc), d ∈ t.listingExps →
      Listing.getListingById t d.item = none →
      (∀ x ∈ docs, x.id = d.id → x = d) →
      d ∈ (docs.foldl processExpiredListing t).listingExps := by
  induction docs with
  | nil => intro t d h1 _ _; exact h1
  | cons d0 ds ih =>
    intro t d h1 h2 h3
    rw [List.foldl_cons]
    cases hscrut : Listing.getListingById t d0.item with
    | none =>
      rw [procL_eq_none t d0 hscrut]
      exact ih t d h1 h2 (fun x hx => h3 x (List.mem_cons_of_mem d0 hx))
    | some l =>
      by_cases hid : d0.id = d.id
      · exfalso
        have hde : d0 = d := h3 d0 (List.mem_cons_self d0 ds) hid
        rw [hde, h2] at hscrut
        cases hscrut
      · have hne : (d.id != d0.id) = true :=
          bne_iff_ne.mpr (fun hcon => hid hcon.symm)
        have hmem : d ∈ (processExpiredListing t d0).listingExps := by
          cases hl : l.hidden with
          | true =>
            rw [procL_eq_clean t d0 l hscrut hl]
            exact List.mem_filter.mpr ⟨h1, hne⟩
          | false =>
            rw [procL_eq_hide t d0 l hscrut hl]
            exact List.mem_filter.mpr ⟨h1, hne⟩
        have hnone : Listing.getListingById (processExpiredListing t d0) d.item = none :=
          (procL_lookup_none_iff t d0 d.item).mpr h2
        exact ih (processExpiredListing t d0) d hmem hnone
          (fun x hx => h3 x (List.mem_cons_of_mem d0 hx))

/-! ### Sweep machinery: request side (mirror of the listing side) -/

/-- The tracked value of a swept Request: the stored document is either
the original or its hidden version. -/
def trackR (s : Store) (i : Nat) (m : Request) : Prop :=
  Requesting.getRequestById s i = some m ∨
  Requesting.getRequestById s i = some { m with hidden := true }

theorem hide_id_of_hiddenR (m : Request) (hm : m.hidden = true) :
    ({ m with hidden := true } : Request) = m := by
  cases m
  simp only at hm
  rw [hm]

theorem procR_track (s : Store) (d : ExpireDoc) (i : Nat) (m : Request)
    (h : trackR s i m) : trackR (processExpiredRequest s d) i m := by
  cases hscrut : Requesting.getRequestById s d.item with
  | none => rw [procR_eq_none s d hscrut]; exact h
  | some l =>
    cases hl : l.hidden with
    | true => rw [procR_eq_clean s d l hscrut hl]; exact h
    | false =>
      rw [procR_eq_hide s d l hscrut hl]
      unfold trackR at h ⊢
      rw [show Requesting.getRequestById
        (Request_Expiring.delete (Requesting.hideSwitch s d.item) d.id) i =
        Requesting.getRequestById (Requesting.hideSwitch s d.item) i from rfl]
      rw [lookupRequest_hideSwitch]
      by_cases hij : i = d.item
      · rw [if_pos hij]
        cases h with
        | inl h => right; rw [h]; rfl
        | inr h => right; rw [h]; rfl
      · rw [if_neg hij]; exact h

theorem procR_post (s : Store) (d : ExpireDoc) (i : Nat) (m : Request)
    (hm : m.hidden = true) (h : Requesting.getRequestById s i = some m) :
    Requesting.getRequestById (processExpiredRequest s d) i = some m := by
  cases hscrut : Requesting.getRequestById s d.item with
  | none => rw [procR_eq_none s d hscrut]; exact h
  | some l =>
    cases hl : l.hidden with
    | true => rw [procR_eq_clean s d l hscrut hl]; exact h
    | false =>
      rw [procR_eq_hide s d l hscrut hl]
      rw [show Requesting.getRequestById
        (Request_Expiring.delete (Requesting.hideSwitch s d.item) d.id) i =
        Requesting.getRequestById (Requesting.hideSwitch s d.item) i from rfl]
      rw [lookupRequest_hideSwitch]
      by_cases hij : i = d.item
      · exfalso
        rw [hij, hscrut] at h
        injection h with h
        rw [← h] at hm
        rw [hl] at hm
        cases hm
      · rw [if_neg hij]; exact h

theorem procR_lookup_none_iff (s : Store) (d : ExpireDoc) (i : Nat) :
    Requesting.getRequestById (processExpiredRequest s d) i = none ↔
    Requesting.getRequestById s i = none := by
  cases hscrut : Requesting.getRequestById s d.item with
  | none => rw [procR_eq_none s d hscrut]
  | some l =>
    cases hl : l.hidden with
    | true => rw [procR_eq_clean s d l hscrut hl]; exact Iff.rfl
    | false =>
      rw [procR_eq_hide s d l hscrut hl]
      rw [show Requesting.getRequestById
        (Request_Expiring.delete (Requesting.hideSwitch s d.item) d.id) i =
        Requesting.getRequestById (Requesting.hideSwitch s d.item) i from rfl]
      rw [lookupRequest_hideSwitch]
      by_cases hij : i = d.item
      · rw [if_pos hij]
        simp
      · rw [if_neg hij]

theorem procR_exps_sub (s : Store) (d : ExpireDoc) (e : ExpireDoc)
    (he : e ∈ (processExpiredRequest s d).requestExps) : e ∈ s.requestExps := by
  revert he
  cases hscrut : Requesting.getRequestById s d.item with
  | none => rw [procR_eq_none s d hscrut]; exact id
  | some l =>
    cases hl : l.hidden with
    | true =>
      rw [procR_eq_clean s d l hscrut hl]
      intro he
      exact (List.mem_filter.mp he).1
    | false =>
      rw [procR_eq_hide s d l hscrut hl]
      intro he
      exact (List.mem_filter.mp he).1

theorem procR_absent (s : Store) (d : ExpireDoc) (rid : Nat)
    (h : ∀ e ∈ s.requestExps, e.id ≠ rid) :
    ∀ e ∈ (processExpiredRequest s d).requestExps, e.id ≠ rid :=
  fun e he => h e (procR_exps_sub s d e he)

theorem procR_absent_of_found (s : Store) (d : ExpireDoc) (l : Request)
    (h : Requesting.getRequestById s d.item = some l) :
    ∀ e ∈ (processExpiredRequest s d).requestExps, e.id ≠ d.id := by
  cases hl : l.hidden with
  | true =>
    rw [procR_eq_clean s d l h hl]
    intro e he
    exact bne_iff_ne.mp (List.mem_filter.mp he).2
  | false =>
    rw [procR_eq_hide s d l h hl]
    intro e he
    exact bne_iff_ne.mp (List.mem_filter.mp he).2

theorem procR_processed (s : Store) (d : ExpireDoc) (m : Request)
    (h : trackR s d.item m) :
    Requesting.getRequestById (processExpiredRequest s d) d.item =
      some { m with hidden := true } ∧
    ∀ e ∈ (processExpiredRequest s d).requestExps, e.id ≠ d.id := by
  cases h with
  | inl h =>
    cases hm : m.hidden with
    | false =>
      rw [procR_eq_hide s d m h hm]
      constructor
      · rw [show Requesting.getRequestById
          (Request_Expiring.delete (Requesting.hideSwitch s d.item) d.id) d.item =
          Requesting.getRequestById (Requesting.hideSwitch s d.item) d.item from rfl]
        rw [lookupRequest_hideSwitch, if_pos rfl, h]
        rfl
      · rw [← procR_eq_hide s d m h hm]
        exact procR_absent_of_found s d m h
    | true =>
      rw [procR_eq_clean s d m h hm]
      constructor
      · rw [hide_id_of_hiddenR m hm]
        exact h
      · rw [← procR_eq_clean s d m h hm]
        exact procR_absent_of_found s d m h
  | inr h =>
    rw [procR_eq_clean s d { m with hidden := true } h rfl]
    constructor
    · exact h
    · rw [← procR_eq_clean s d { m with hidden := true } h rfl]
      exact procR_absent_of_found s d { m with hidden := true } h

theorem foldR_track (docs : List ExpireDoc) (s : Store) (i : Nat) (m : Request)
    (h : trackR s i m) :
    trackR (docs.foldl processExpiredRequest s) i m :=
  foldl_pres processExpiredRequest (fun s d h => procR_track s d i m h) docs s h

theorem foldR_post (docs : List ExpireDoc) (s : Store) (i : Nat) (m : Request)
    (hm : m.hidden = true) (h : Requesting.getRequestById s i = some m) :
    Requesting.getRequestById (docs.foldl processExpiredRequest s) i = some m :=
  foldl_pres processExpiredRequest (fun s d h => procR_post s d i m hm h) docs s h

theorem foldR_absent (docs : List ExpireDoc) (s : Store) (rid : Nat)
    (h : ∀ e ∈ s.requestExps, e.id ≠ rid) :
    ∀ e ∈ (docs.foldl processExpiredRequest s).requestExps, e.id ≠ rid :=
  foldl_pres processExpiredRequest (fun s d h => procR_absent s d rid h) docs s h

theorem foldR_sub (docs : List ExpireDoc) :
    ∀ (s : Store) (e : ExpireDoc),
      e ∈ (docs.foldl processExpiredRequest s).requestExps → e ∈ s.requestExps := by
  induction docs with
  | nil => intro s e he; exact he
  | cons d ds ih =>
    intro s e he
    rw [List.foldl_cons] at he
    exact procR_exps_sub s d e (ih (processExpiredRequest s d) e he)

theorem foldR_none_iff (docs : List ExpireDoc) :
    ∀ (s : Store) (i : Nat),
      Requesting.getRequestById (docs.foldl processExpiredRequest s) i = none ↔
      Requesting.getRequestById s i = none := by
  induction docs with
  | nil => intro s i; exact Iff.rfl
  | cons d ds ih =>
    intro s i
    rw [List.foldl_cons]
    exact (ih (processExpiredRequest s d) i).trans (procR_lookup_none_iff s d i)

theorem foldR_converge (docs : List ExpireDoc) :
    ∀ (s : Store) (d : ExpireDoc) (m : Request), d ∈ docs → trackR s d.item m →
      Requesting.getRequestById (docs.foldl processExpiredRequest s) d.item =
        some { m with hidden := true } ∧
      ∀ e ∈ (docs.foldl processExpiredRequest s).requestExps, e.id ≠ d.id := by
  induction docs with
  | nil => intro s d m hd; cases hd
  | cons d0 ds ih =>
    intro s d m hd htrack
    rw [List.foldl_cons]
    rcases List.mem_cons.mp hd with heq | hmem
    · subst heq
      have h8 := procR_processed s d m htrack
      exact ⟨foldR_post ds (processExpiredRequest s d) d.item _ rfl h8.1,
        foldR_absent ds (processExpiredRequest s d) d.id h8.2⟩
    · exact ih (processExpiredRequest s d0) d m hmem (procR_track s d0 d.item m htrack)

theorem foldR_survivor_stale (docs : List ExpireDoc) :
    ∀ (s : Store) (d : ExpireDoc), d ∈ docs →
      d ∈ (docs.foldl processExpiredRequest s).requestExps →
      Requesting.getRequestById (docs.foldl processExpiredRequest s) d.item = none := by
  induction docs with
  | nil => intro s d hd; cases hd
  | cons d0 ds ih =>
    intro s d hd hfin
    rw [List.foldl_cons] at hfin ⊢
    rcases List.mem_cons.mp hd with heq | hmem
    · subst heq
      cases hscrut : Requesting.getRequestById s d.item with
      | some l =>
        exfalso
        have hin : d ∈ (processExpiredRequest s d).requestExps :=
          foldR_sub ds (processExpiredRequest s d) d hfin
        exact procR_absent_of_found s d l hscrut d hin rfl
      | none =>
        rw [procR_eq_none s d hscrut] at hfin ⊢
        exact (foldR_none_iff ds s d.item).mpr hscrut
    · exact ih (processExpiredRequest s d0) d hmem hfin

theorem foldR_all_stale_id (docs : List ExpireDoc) :
    ∀ (s : Store), (∀ e ∈ docs, Requesting.getRequestById s e.item = none) →
      docs.foldl processExpiredRequest s = s := by
  induction docs with
  | nil => intro s _; rfl
  | cons d ds ih =>
    intro s h
    rw [List.foldl_cons, procR_eq_none s d (h d (List.mem_cons_self d ds))]
    exact ih s (fun e he => h e (List.mem_cons_of_mem d he))

theorem foldR_stale_pres (docs : List ExpireDoc) :
    ∀ (t : Store) (d : ExpireDoc), d ∈ t.requestExps →
      Requesting.getRequestById t d.item = none →
      (∀ x ∈ docs, x.id = d.id → x = d) →
      d ∈ (docs.foldl processExpiredRequest t).requestExps := by
  induction docs with
  | nil => intro t d h1 _ _; exact h1
  | cons d0 ds ih =>
    intro t d h1 h2 h3
    rw [List.foldl_cons]
    cases hscrut : Requesting.getRequestById t d0.item with
    | none =>
      rw [procR_eq_none t d0 hscrut]
      exact ih t d h1 h2 (fun x hx => h3 x (List.mem_cons_of_mem d0 hx))
    | some l =>
      by_cases hid : d0.id = d.id
      · exfalso
        have hde : d0 = d := h3 d0 (List.mem_cons_self d0 ds) hid
        rw [hde, h2] at hscrut
        cases hscrut
      · have hne : (d.id != d0.id) = true :=
          bne_iff_ne.mpr (fun hcon => hid hcon.symm)
        have hmem : d ∈ (processExpiredRequest t d0).requestExps := by
          cases hl : l.hidden with
          | true =>
            rw [procR_eq_clean t d0 l hscrut hl]
            exact List.mem_filter.mpr ⟨h1, hne⟩
          | false =>
            rw [procR_eq_hide t d0 l hscrut hl]
            exact List.mem_filter.mpr ⟨h1, hne⟩
        have hnone : Requesting.getRequestById (processExpiredRequest t d0) d.item = none :=
          (procR_lookup_none_iff t d0 d.item).mpr h2
        exact ih (processExpiredRequest t d0) d hmem hnone
          (fun x hx => h3 x (List.mem_cons_of_mem d0 hx))

/-! ### Cross-kind isolation of the two sweep handlers -/

theorem procL_requests (s : Store) (d : ExpireDoc) :
    (processExpiredListing s d).requests = s.requests := by
  cases hscrut : Listing.getListingById s d.item with
  | none => rw [procL_eq_none s d hscrut]
  | some l =>
    cases hl : l.hidden with
    | true => rw [procL_eq_clean s d l hscrut hl]; rfl
    | false => rw [procL_eq_hide s d l hscrut hl]; rfl

theorem procL_requestExps (s : Store) (d : ExpireDoc) :
    (processExpiredListing s d).requestExps = s.requestExps := by
  cases hscrut : Listing.getListingById s d.item with
  | none => rw [procL_eq_none s d hscrut]
  | some l =>
    cases hl : l.hidden with
    | true => rw [procL_eq_clean s d l hscrut hl]; rfl
    | false => rw [procL_eq_hide s d l hscrut hl]; rfl

theorem procR_listings (s : Store) (d : ExpireDoc) :
    (processExpiredRequest s d).listings = s.listings := by
  cases hscrut : Requesting.getRequestById s d.item with
  | none => rw [procR_eq_none s d hscrut]
  | some r =>
    cases hr : r.hidden with
    | true => rw [procR_eq_clean s d r hscrut hr]; rfl
    | false => rw [procR_eq_hide s d r hscrut hr]; rfl

theorem procR_listingExps (s : Store) (d : ExpireDoc) :
    (processExpiredRequest s d).listingExps = s.listingExps := by
  cases hscrut : Requesting.getRequestById s d.item with
  | none => rw [procR_eq_none s d hscrut]
  | some r =>
    cases hr : r.hidden with
    | true => rw [procR_eq_clean s d r hscrut hr]; rfl
    | false => rw [procR_eq_hide s d r hscrut hr]; rfl

theorem foldHL_requests (docs : List ExpireDoc) :
    ∀ (s : Store), (docs.foldl processExpiredListing s).requests = s.requests := by
  induction docs with
  | nil => intro s; rfl
  | cons d ds ih =>
    intro s
    rw [List.foldl_cons, ih (processExpiredListing s d), procL_requests]

theorem foldHL_requestExps (docs : List ExpireDoc) :
    ∀ (s : Store), (docs.foldl processExpiredListing s).requestExps = s.requestExps := by
  induction docs with
  | nil => intro s; rfl
  | cons d ds ih =>
    intro s
    rw [List.foldl_cons, ih (processExpiredListing s d), procL_requestExps]

theorem foldHR_listings (docs : List ExpireDoc) :
    ∀ (s : Store), (docs.foldl processExpiredRequest s).listings = s.listings := by
  induction docs with
  | nil => intro s; rfl
  | cons d ds ih =>
    intro s
    rw [List.foldl_cons, ih (processExpiredRequest s d), procR_listings]

theorem foldHR_listingExps (docs : List ExpireDoc) :
    ∀ (s : Store), (docs.foldl processExpiredRequest s).listingExps = s.listingExps := by
  induction docs with
  | nil => intro s; rfl
  | cons d ds ih =>
    intro s
    rw [List.foldl_cons, ih (processExpiredRequest s d), procR_listingExps]

theorem handleL_requests (s : Store) (now : Nat) :
    (handleListingsExpired s now).requests = s.requests :=
  foldHL_requests (Listing_Expiring.getAllExpired s now) s

theorem handleL_requestExps (s : Store) (now : Nat) :
    (handleListingsExpired s now).requestExps = s.requestExps :=
  foldHL_requestExps (Listing_Expiring.getAllExpired s now) s

theorem handleR_listings (s : Store) (now : Nat) :
    (handleRequestsExpired s now).listings = s.listings :=
  foldHR_listings (Request_Expiring.getAllExpired s now) s

theorem handleR_listingExps (s : Store) (now : Nat) :
    (handleRequestsExpired s now).listingExps = s.listingExps :=
  foldHR_listingExps (Request_Expiring.getAllExpired s now) s

theorem lookupL_congr {s t : Store} (h : s.listings = t.listings) (i : Nat) :
    Listing.getListingById s i = Listing.getListingById t i := by
  unfold Listing.getListingById
  rw [h]

theorem lookupR_congr {s t : Store} (h : s.requests = t.requests) (i : Nat) :
    Requesting.getRequestById s i = Requesting.getRequestById t i := by
  unfold Requesting.getRequestById
  rw [h]

/-! ### C2: sweep convergence -/

/-- C2: for every ExpirationRecord whose instant is at or before `now`
and whose referenced Item exists: if the Item is not hidden, one sweep
tick hides it and deletes the record; if it is already hidden, the tick
deletes the record and leaves the Item unchanged — for both kinds. -/
theorem C2_sweep_convergence (s : Store) (now : Nat) :
    (∀ d ∈ Listing_Expiring.getAllExpired s now, ∀ l : Listing,
      Listing.getListingById s d.item = some l →
      ((l.hidden = false →
        Listing.getListingById (sweepTick s now) d.item =
          some { l with hidden := true } ∧
        ∀ e ∈ (sweepTick s now).listingExps, e.id ≠ d.id) ∧
       (l.hidden = true →
        Listing.getListingById (sweepTick s now) d.item = some l ∧
        ∀ e ∈ (sweepTick s now).listingExps, e.id ≠ d.id))) ∧
    (∀ d ∈ Request_Expiring.getAllExpired s now, ∀ r : Request,
      Requesting.getRequestById s d.item = some r →
      ((r.hidden = false →
        Requesting.getRequestById (sweepTick s now) d.item =
          some { r with hidden := true } ∧
        ∀ e ∈ (sweepTick s now).requestExps, e.id ≠ d.id) ∧
       (r.hidden = true →
        Requesting.getRequestById (sweepTick s now) d.item = some r ∧
        ∀ e ∈ (sweepTick s now).requestExps, e.id ≠ d.id))) := by
  constructor
  · intro d hd l hl
    have hconv := foldL_converge (Listing_Expiring.getAllExpired s now) s d l hd
      (Or.inl hl)
    have hlook : Listing.getListingById (sweepTick s now) d.item =
        Listing.getListingById (handleListingsExpired s now) d.item :=
      lookupL_congr (handleR_listings (handleListingsExpired s now) now) d.item
    have hexps : (sweepTick s now).listingExps =
        (handleListingsExpired s now).listingExps :=
      handleR_listingExps (handleListingsExpired s now) now
    have hc1 : Listing.getListingById (handleListingsExpired s now) d.item =
        some { l with hidden := true } := hconv.1
    constructor
    · intro hhid
      refine ⟨?_, ?_⟩
      · rw [hlook]
        exact hc1
      · rw [hexps]
        exact hconv.2
    · intro hhid
      refine ⟨?_, ?_⟩
      · rw [hlook, hc1, hide_id_of_hidden l hhid]
      · rw [hexps]
        exact hconv.2
  · intro d hd r hr
    set A := handleListingsExpired s now with hA
    have hreqs : A.requests = s.requests := handleL_requests s now
    have hrexps : A.requestExps = s.requestExps := handleL_requestExps s now
    have hexpired : Request_Expiring.getAllExpired A now =
        Request_Expiring.getAllExpired s now := by
      unfold Request_Expiring.getAllExpired
      rw [hrexps]
    have hrA : Requesting.getRequestById A d.item = some r := by
      rw [lookupR_congr hreqs d.item]
      exact hr
    have hdA : d ∈ Request_Expiring.getAllExpired A now := by
      rw [hexpired]
      exact hd
    have hconv := foldR_converge (Request_Expiring.getAllExpired A now) A d r hdA
      (Or.inl hrA)
    constructor
    · intro hhid
      exact ⟨hconv.1, hconv.2⟩
    · intro hhid
      refine ⟨?_, hconv.2⟩
      rw [show sweepTick s now = handleRequestsExpired A now from rfl]
      have := hconv.1
      rw [hide_id_of_hiddenR r hhid] at this
      exact this

/-! ### C6: sweep idempotence -/

/-- C6: running the sweep twice in immediate succession yields the same
store as running it once; the second run finds only stale records (whose
items were already processed or missing) and changes nothing, raising no
error (the model is a total function). -/
theorem C6_sweep_idempotent (s : Store) (now : Nat) :
    sweepTick (sweepTick s now) now = sweepTick s now := by
  set A := handleListingsExpired s now with hA
  set T := handleRequestsExpired A now with hT
  have hTlistings : T.listings = A.listings := handleR_listings A now
  have hTlexps : T.listingExps = A.listingExps := handleR_listingExps A now
  have h1 : ∀ e ∈ T.listingExps, e.date ≤ now →
      Listing.getListingById T e.item = none := by
    intro e he hdate
    rw [hTlexps] at he
    have hesub : e ∈ s.listingExps :=
      foldL_sub (Listing_Expiring.getAllExpired s now) s e he
    have hedocs : e ∈ Listing_Expiring.getAllExpired s now := by
      unfold Listing_Expiring.getAllExpired
      rw [List.mem_filter]
      exact ⟨hesub, by simpa using hdate⟩
    have hstale : Listing.getListingById A e.item = none :=
      foldL_survivor_stale (Listing_Expiring.getAllExpired s now) s e hedocs he
    rw [lookupL_congr hTlistings e.item]
    exact hstale
  have step1 : handleListingsExpired T now = T := by
    apply foldL_all_stale_id
    intro e he
    unfold Listing_Expiring.getAllExpired at he
    rw [List.mem_filter] at he
    exact h1 e he.1 (by simpa using he.2)
  have h2 : ∀ e ∈ T.requestExps, e.date ≤ now →
      Requesting.getRequestById T e.item = none := by
    intro e he hdate
    have hesub : e ∈ A.requestExps :=
      foldR_sub (Request_Expiring.getAllExpired A now) A e he
    have hedocs : e ∈ Request_Expiring.getAllExpired A now := by
      unfold Request_Expiring.getAllExpired
      rw [List.mem_filter]
      exact ⟨hesub, by simpa using hdate⟩
    exact foldR_survivor_stale (Request_Expiring.getAllExpired A now) A e hedocs he
  have step2 : handleRequestsExpired T now = T := by
    apply foldR_all_stale_id
    intro e he
    unfold Request_Expiring.getAllExpired at he
    rw [List.mem_filter] at he
    exact h2 e he.1 (by simpa using he.2)
  show handleRequestsExpired (handleListingsExpired T now) now = T
  rw [step1, step2]

/-! ### C9: stale records are left in place -/

/-- A store holding one expired Listing expiration record whose Listing
does not exist. -/
def staleStore : Store := ⟨[], [], [⟨1, 42, 0⟩], [], [], [], [], 2⟩

/-- C9 counterexample: an expired record whose referenced Listing was
deleted is NOT deleted by a sweep tick — it is still present afterwards,
contradicting the claim that the tick deletes stale records. -/
theorem C9_counterexample :
    (⟨1, 42, 0⟩ : ExpireDoc) ∈ staleStore.listingExps ∧
    (0 : Nat) ≤ 100 ∧
    Listing.getListingById staleStore 42 = none ∧
    (⟨1, 42, 0⟩ : ExpireDoc) ∈ (sweepTick staleStore 100).listingExps := by
  decide

/-- C9 amended: an expired ExpirationRecord whose referenced Item no
longer exists is left in place by the sweep tick (the tick processes it
without error but has no branch that deletes it), for both kinds. -/
theorem C9_amended_stale_record_left (s : Store) (now : Nat) (hWF : WF s) :
    (∀ d ∈ s.listingExps, d.date ≤ now →
      Listing.getListingById s d.item = none →
      d ∈ (sweepTick s now).listingExps) ∧
    (∀ d ∈ s.requestExps, d.date ≤ now →
      Requesting.getRequestById s d.item = none →
      d ∈ (sweepTick s now).requestExps) := by
  obtain ⟨-, -, -, -, -, -, hNodupL, hNodupR, -, -⟩ := hWF
  set A := handleListingsExpired s now with hA
  constructor
  · intro d hd hdate hnone
    have hmem : d ∈ A.listingExps := by
      apply foldL_stale_pres (Listing_Expiring.getAllExpired s now) s d hd hnone
      intro x hx hxid
      have hxmem : x ∈ s.listingExps := by
        unfold Listing_Expiring.getAllExpired at hx
        exact (List.mem_filter.mp hx).1
      exact List.inj_on_of_nodup_map hNodupL hxmem hd hxid
    have : (sweepTick s now).listingExps = A.listingExps :=
      handleR_listingExps A now
    rw [this]
    exact hmem
  · intro d hd hdate hnone
    have hdA : d ∈ A.requestExps := by
      rw [handleL_requestExps s now]
      exact hd
    have hnoneA : Requesting.getRequestById A d.item = none := by
      rw [lookupR_congr (handleL_requests s now) d.item]
      exact hnone
    apply foldR_stale_pres (Request_Expiring.getAllExpired A now) A d hdA hnoneA
    intro x hx hxid
    have hxmem : x ∈ s.requestExps := by
      unfold Request_Expiring.getAllExpired at hx
      rw [List.mem_filter] at hx
      have := hx.1
      rw [handleL_requestExps s now] at this
      exact this
    have hdmem : d ∈ s.requestExps := hd
    exact List.inj_on_of_nodup_map hNodupR hxmem hdmem hxid

/-! ### C3 machinery: which collections each operation leaves alone -/

theorem allocateL_listings (s : Store) (a d : Nat) :
    (Listing_Expiring.allocate s a d).listings = s.listings := by
  unfold Listing_Expiring.allocate
  split <;> rfl

theorem allocateL_requests (s : Store) (a d : Nat) :
    (Listing_Expiring.allocate s a d).requests = s.requests := by
  unfold Listing_Expiring.allocate
  split <;> rfl

theorem allocateR_listings (s : Store) (a d : Nat) :
    (Request_Expiring.allocate s a d).listings = s.listings := by
  unfold Request_Expiring.allocate
  split <;> rfl

theorem allocateR_requests (s : Store) (a d : Nat) :
    (Request_Expiring.allocate s a d).requests = s.requests := by
  unfold Request_Expiring.allocate
  split <;> rfl

theorem addListing_requests (s : Store) (user : Nat) (name loc image : String)
    (qty : Int) (expireDate : Nat) (descr : String) (tags : List String)
    (fail : FailSpec) :
    (addListing s user name loc image qty expireDate descr tags fail).1.requests =
      s.requests := by
  unfold addListing
  cases hc : fail.createFails with
  | true => simp [hc]
  | false =>
    cases ha : fail.allocateFails with
    | true => simp [hc, ha, Listing.delete, Listing.addListing]
    | false =>
      simp only [hc, ha, Bool.false_eq_true, if_false]
      rcases htl : tagLoop
          (Listing_Expiring.allocate
            (Listing.addListing s user name loc image qty descr tags).1
            (Listing.addListing s user name loc image qty descr tags).2.id expireDate)
          (Listing.addListing s user name loc image qty descr tags).2.id
          tags fail.tagFailAt 0 with ⟨s3, oe⟩
      have hfields := tagLoop_fields
        (Listing.addListing s user name loc image qty descr tags).2.id fail.tagFailAt
        tags
        (Listing_Expiring.allocate
          (Listing.addListing s user name loc image qty descr tags).1
          (Listing.addListing s user name loc image qty descr tags).2.id expireDate) 0
      rw [htl] at hfields
      have hs3 : s3.requests = s.requests := by
        rw [hfields.2.2.1, allocateL_requests]
        rfl
      cases oe with
      | some e => simpa [Listing.delete] using hs3
      | none => simpa using hs3

theorem addRequest_listings (s : Store) (user : Nat) (name : String) (qty : Int)
    (needBy : Nat) (image descr : Option String) (fail : FailSpec) :
    (addRequest s user name qty needBy image descr fail).1.listings = s.listings := by
  unfold addRequest
  cases hc : fail.createFails with
  | true => simp [hc]
  | false =>
    cases ha : fail.allocateFails with
    | true => simp [hc, ha, Requesting.delete, Requesting.add]
    | false =>
      simp only [hc, ha, Bool.false_eq_true, if_false]
      rw [allocateR_listings]
      rfl

theorem deleteListing_requests (s : Store) (user i : Nat) :
    (deleteListing s user i).1.requests = s.requests := by
  unfold deleteListing
  cases h : Listing.getListingById s i with
  | none => rfl
  | some l =>
    by_cases hu : (l.author != user) = true
    · simp [hu]
    · simp only [hu, Bool.false_eq_true, if_false]
      cases he : Listing_Expiring.getExpireByItem s i <;> rfl

theorem deleteRequest_offers_or_listings (s : Store) (user i : Nat) :
    (deleteRequest s user i).1.listings = s.listings := by
  unfold deleteRequest
  cases h : Requesting.getRequestById s i with
  | none => rfl
  | some r =>
    by_cases hu : (r.requester != user) = true
    · simp [hu]
    · simp only [hu, Bool.false_eq_true, if_false]
      cases he : Request_Expiring.getExpireByItem s i <;> rfl

theorem acceptOffer_listings (s : Store) (user oid : Nat) :
    (acceptOffer s user oid).1.listings = s.listings := by
  unfold acceptOffer
  cases h : Offering.getOfferById s oid <;> rfl

theorem claim_requests (s : Store) (user lid : Nat) (qty : Int) :
    (claim s user lid qty).1.requests = s.requests := by
  unfold claim
  cases h : Listing.getListingById s lid with
  | none => rfl
  | some listing =>
    by_cases hq : qty ≤ listing.quantity
    · simp only [hq, if_true]
      by_cases he : (qty == listing.quantity) = true
      · simp [he, Listing.hideSwitch, Listing.editlisting, Claiming.claim]
      · simp [he, Listing.editlisting, Claiming.claim]
    · simp [hq]

/-- Hidden-or-gone: the looked-up Listing, if present, is hidden. -/
def hidL (s : Store) (i : Nat) : Prop :=
  ((Listing.getListingById s i).all (fun l => l.hidden)) = true

/-- Hidden-or-gone: the looked-up Request, if present, is hidden. -/
def hidR (s : Store) (j : Nat) : Prop :=
  ((Requesting.getRequestById s j).all (fun r => r.hidden)) = true

theorem hidL_of_eq {s t : Store} (h : t.listings = s.listings) {i : Nat}
    (hs : hidL s i) : hidL t i := by
  unfold hidL
  rw [lookupL_congr h]
  exact hs

theorem hidR_of_eq {s t : Store} (h : t.requests = s.requests) {j : Nat}
    (hs : hidR s j) : hidR t j := by
  unfold hidR
  rw [lookupR_congr h]
  exact hs

theorem hidL_of_some {s : Store} {i : Nat} {l : Listing}
    (hl : Listing.getListingById s i = some l) (hh : l.hidden = true) :
    hidL s i := by
  unfold hidL
  rw [hl]
  simpa using hh

theorem hidR_of_some {s : Store} {j : Nat} {r : Request}
    (hr : Requesting.getRequestById s j = some r) (hh : r.hidden = true) :
    hidR s j := by
  unfold hidR
  rw [hr]
  simpa using hh

theorem hidL_delete (s : Store) (a i : Nat) (h : hidL s i) :
    hidL (Listing.delete s a) i := by
  unfold hidL at h ⊢
  rw [lookupListing_delete]
  by_cases hia : i = a
  · rw [if_pos hia]; rfl
  · rw [if_neg hia]; exact h

theorem hidR_delete (s : Store) (a j : Nat) (h : hidR s j) :
    hidR (Requesting.delete s a) j := by
  unfold hidR at h ⊢
  rw [lookupRequest_delete]
  by_cases hja : j = a
  · rw [if_pos hja]; rfl
  · rw [if_neg hja]; exact h

theorem hidL_hide (s : Store) (a i : Nat) (h : hidL s i) :
    hidL (Listing.hideSwitch s a) i := by
  unfold hidL at h ⊢
  rw [lookupListing_hideSwitch]
  by_cases hia : i = a
  · rw [if_pos hia]
    cases Listing.getListingById s i <;> simp
  · rw [if_neg hia]; exact h

theorem hidR_hide (s : Store) (a j : Nat) (h : hidR s j) :
    hidR (Requesting.hideSwitch s a) j := by
  unfold hidR at h ⊢
  rw [lookupRequest_hideSwitch]
  by_cases hja : j = a
  · rw [if_pos hja]
    cases Requesting.getRequestById s j <;> simp
  · rw [if_neg hja]; exact h

theorem hidL_edit (s : Store) (a i : Nat) (n lo im : Option String)
    (q : Option Int) (d : Option String) (tg : Option (List String))
    (h : hidL s i) : hidL (Listing.editlisting s a n lo im q d tg) i := by
  unfold hidL at h ⊢
  rw [lookupListing_edit]
  by_cases hia : i = a
  · rw [if_pos hia]
    cases hx : Listing.getListingById s i with
    | none => rfl
    | some l =>
      rw [hx] at h
      simpa [applyEdit] using h
  · rw [if_neg hia]; exact h

theorem lookupListing_append_of_some {s : Store} {i : Nat} {l : Listing}
    (hl : Listing.getListingById s i = some l) (new : Listing) :
    (s.listings ++ [new]).find? (fun x => x.id == i) = some l := by
  have hl' : s.listings.find? (fun x => x.id == i) = some l := hl
  rw [List.find?_append, hl']
  rfl

theorem lookupRequest_append_of_some {s : Store} {j : Nat} {r : Request}
    (hr : Requesting.getRequestById s j = some r) (new : Request) :
    (s.requests ++ [new]).find? (fun x => x.id == j) = some r := by
  have hr' : s.requests.find? (fun x => x.id == j) = some r := hr
  rw [List.find?_append, hr']
  rfl

/-! ### Per-operation hidden monotonicity -/

theorem monoL_addListing (s : Store) (i : Nat) (l : Listing)
    (hl : Listing.getListingById s i = some l) (hh : l.hidden = true)
    (user : Nat) (name loc image : String) (qty : Int) (expireDate : Nat)
    (descr : String) (tags : List String) (fail : FailSpec) :
    hidL (addListing s user name loc image qty expireDate descr tags fail).1 i := by
  have hbase : hidL s i := hidL_of_some hl hh
  unfold addListing
  cases hc : fail.createFails with
  | true => simpa [hc] using hbase
  | false =>
    have hp : hidL (Listing.addListing s user name loc image qty descr tags).1 i :=
      hidL_of_some (lookupListing_append_of_some hl _) hh
    cases ha : fail.allocateFails with
    | true =>
      simp only [hc, ha, Bool.false_eq_true, if_false, if_true]
      exact hidL_delete _ _ i hp
    | false =>
      simp only [hc, ha, Bool.false_eq_true, if_false]
      rcases htl : tagLoop
          (Listing_Expiring.allocate
            (Listing.addListing s user name loc image qty descr tags).1
            (Listing.addListing s user name loc image qty descr tags).2.id expireDate)
          (Listing.addListing s user name loc image qty descr tags).2.id
          tags fail.tagFailAt 0 with ⟨s3, oe⟩
      have hfields := tagLoop_fields
        (Listing.addListing s user name loc image qty descr tags).2.id fail.tagFailAt
        tags
        (Listing_Expiring.allocate
          (Listing.addListing s user name loc image qty descr tags).1
          (Listing.addListing s user name loc image qty descr tags).2.id expireDate) 0
      rw [htl] at hfields
      have hs3 : s3.listings =
          (Listing.addListing s user name loc image qty descr tags).1.listings := by
        rw [hfields.1, allocateL_listings]
      have hs3hid : hidL s3 i := hidL_of_eq hs3 hp
      cases oe with
      | some e => exact hidL_delete _ _ i hs3hid
      | none => exact hs3hid

theorem monoR_addListing (s : Store) (j : Nat) (r : Request)
    (hr : Requesting.getRequestById s j = some r) (hh : r.hidden = true)
    (user : Nat) (name loc image : String) (qty : Int) (expireDate : Nat)
    (descr : String) (tags : List String) (fail : FailSpec) :
    hidR (addListing s user name loc image qty expireDate descr tags fail).1 j :=
  hidR_of_eq (addListing_requests s user name loc image qty expireDate descr tags fail)
    (hidR_of_some hr hh)

theorem monoL_addRequest (s : Store) (i : Nat) (l : Listing)
    (hl : Listing.getListingById s i = some l) (hh : l.hidden = true)
    (user : Nat) (name : String) (qty : Int) (needBy : Nat)
    (image descr : Option String) (fail : FailSpec) :
    hidL (addRequest s user name qty needBy image descr fail).1 i :=
  hidL_of_eq (addRequest_listings s user name qty needBy image descr fail)
    (hidL_of_some hl hh)

theorem monoR_addRequest (s : Store) (j : Nat) (r : Request)
    (hr : Requesting.getRequestById s j = some r) (hh : r.hidden = true)
    (user : Nat) (name : String) (qty : Int) (needBy : Nat)
    (image descr : Option String) (fail : FailSpec) :
    hidR (addRequest s user name qty needBy image descr fail).1 j := by
  have hbase : hidR s j := hidR_of_some hr hh
  unfold addRequest
  cases hc : fail.createFails with
  | true => simpa [hc] using hbase
  | false =>
    have hp : hidR (Requesting.add s user name qty image descr).1 j :=
      hidR_of_some (lookupRequest_append_of_some hr _) hh
    cases ha : fail.allocateFails with
    | true =>
      simp only [hc, ha, Bool.false_eq_true, if_false, if_true]
      exact hidR_delete _ _ j hp
    | false =>
      simp only [hc, ha, Bool.false_eq_true, if_false]
      exact hidR_of_eq (allocateR_requests _ _ _) hp

theorem monoL_deleteListing (s : Store) (i : Nat) (l : Listing)
    (hl : Listing.getListingById s i = some l) (hh : l.hidden = true)
    (user a : Nat) : hidL (deleteListing s user a).1 i := by
  have hbase : hidL s i := hidL_of_some hl hh
  unfold deleteListing
  cases hfind : Listing.getListingById s a with
  | none => exact hbase
  | some l0 =>
    by_cases hu : (l0.author != user) = true
    · simpa [hu] using hbase
    · simp only [hu, Bool.false_eq_true, if_false]
      cases he : Listing_Expiring.getExpireByItem s a with
      | some rec =>
        exact hidL_delete _ _ i (hidL_of_eq (rfl : (Listing_Expiring.delete s rec.id).listings = s.listings) hbase)
      | none => exact hidL_delete _ _ i hbase

theorem monoR_deleteListing (s : Store) (j : Nat) (r : Request)
    (hr : Requesting.getRequestById s j = some r) (hh : r.hidden = true)
    (user a : Nat) : hidR (deleteListing s user a).1 j :=
  hidR_of_eq (deleteListing_requests s user a) (hidR_of_some hr hh)

theorem monoL_deleteRequest (s : Store) (i : Nat) (l : Listing)
    (hl : Listing.getListingById s i = some l) (hh : l.hidden = true)
    (user a : Nat) : hidL (deleteRequest s user a).1 i :=
  hidL_of_eq (deleteRequest_offers_or_listings s user a) (hidL_of_some hl hh)

theorem monoR_deleteRequest (s : Store) (j : Nat) (r : Request)
    (hr : Requesting.getRequestById s j = some r) (hh : r.hidden = true)
    (user a : Nat) : hidR (deleteRequest s user a).1 j := by
  have hbase : hidR s j := hidR_of_some hr hh
  unfold deleteRequest
  cases hfind : Requesting.getRequestById s a with
  | none => exact hbase
  | some r0 =>
    by_cases hu : (r0.requester != user) = true
    · simpa [hu] using hbase
    · simp only [hu, Bool.false_eq_true, if_false]
      cases he : Request_Expiring.getExpireByItem s a with
      | some rec =>
        exact hidR_delete _ _ j (hidR_of_eq
          (rfl : (Offering.removeAllItemOffers (Request_Expiring.delete s rec.id) a).requests = s.requests) hbase)
      | none =>
        exact hidR_delete _ _ j (hidR_of_eq
          (rfl : (Offering.removeAllItemOffers s a).requests = s.requests) hbase)

theorem monoL_acceptOffer (s : Store) (i : Nat) (l : Listing)
    (hl : Listing.getListingById s i = some l) (hh : l.hidden = true)
    (user oid : Nat) : hidL (acceptOffer s user oid).1 i :=
  hidL_of_eq (acceptOffer_listings s user oid) (hidL_of_some hl hh)

theorem monoR_acceptOffer (s : Store) (j : Nat) (r : Request)
    (hr : Requesting.getRequestById s j = some r) (hh : r.hidden = true)
    (user oid : Nat) : hidR (acceptOffer s user oid).1 j := by
  have hbase : hidR s j := hidR_of_some hr hh
  unfold acceptOffer
  cases hfind : Offering.getOfferById s oid with
  | none => exact hbase
  | some offer =>
    exact hidR_of_eq
      (rfl : (Offering.accept (Requesting.hideSwitch s offer.item) oid).requests =
        (Requesting.hideSwitch s offer.item).requests)
      (hidR_hide s offer.item j hbase)

theorem monoL_claim (s : Store) (i : Nat) (l : Listing)
    (hl : Listing.getListingById s i = some l) (hh : l.hidden = true)
    (user lid : Nat) (qty : Int) : hidL (claim s user lid qty).1 i := by
  have hbase : hidL s i := hidL_of_some hl hh
  unfold claim
  cases hfind : Listing.getListingById s lid with
  | none => exact hbase
  | some listing =>
    by_cases hq : qty ≤ listing.quantity
    · simp only [hq, if_true]
      have h1 : hidL (Claiming.claim s user qty lid).1 i :=
        hidL_of_eq (rfl : (Claiming.claim s user qty lid).1.listings = s.listings) hbase
      have h2 : hidL (Listing.editlisting (Claiming.claim s user qty lid).1 lid
          (some listing.name) (some listing.meetup_location) (some listing.image)
          (some (listing.quantity - qty)) none none) i :=
        hidL_edit _ _ i _ _ _ _ _ _ h1
      by_cases he : (qty == listing.quantity) = true
      · simp only [he, if_true]
        exact hidL_hide _ _ i h2
      · simp only [he, Bool.false_eq_true, if_false]
        exact h2
    · simpa [hq] using hbase

theorem monoR_claim (s : Store) (j : Nat) (r : Request)
    (hr : Requesting.getRequestById s j = some r) (hh : r.hidden = true)
    (user lid : Nat) (qty : Int) : hidR (claim s user lid qty).1 j :=
  hidR_of_eq (claim_requests s user lid qty) (hidR_of_some hr hh)

theorem monoL_sweep (s : Store) (i : Nat) (l : Listing)
    (hl : Listing.getListingById s i = some l) (hh : l.hidden = true)
    (now : Nat) : hidL (sweepTick s now) i := by
  have hA : Listing.getListingById (handleListingsExpired s now) i = some l :=
    foldL_post (Listing_Expiring.getAllExpired s now) s i l hh hl
  have hT : Listing.getListingById (sweepTick s now) i = some l := by
    unfold sweepTick
    rw [lookupL_congr (handleR_listings (handleListingsExpired s now) now) i]
    exact hA
  exact hidL_of_some hT hh

theorem monoR_sweep (s : Store) (j : Nat) (r : Request)
    (hr : Requesting.getRequestById s j = some r) (hh : r.hidden = true)
    (now : Nat) : hidR (sweepTick s now) j := by
  have hA : Requesting.getRequestById (handleListingsExpired s now) j = some r := by
    rw [lookupR_congr (handleL_requests s now) j]
    exact hr
  have hT : Requesting.getRequestById (sweepTick s now) j = some r :=
    foldR_post (Request_Expiring.getAllExpired (handleListingsExpired s now) now)
      (handleListingsExpired s now) j r hh hA
  exact hidR_of_some hT hh

/-! ### C3: the hidden flag is monotonic -/

/-- C3: from any state, no single core operation — creation saga, cascade
deletion, offer acceptance, claim, or sweep tick — flips an Item's hidden
flag from true back to false: a hidden Listing `i` / Request `j` is still
hidden (or deleted) in the resulting store of every operation. -/
theorem C3_hidden_monotonic (s : Store) (i : Nat) (l : Listing)
    (j : Nat) (r : Request)
    (hl : Listing.getListingById s i = some l) (hh : l.hidden = true)
    (hr : Requesting.getRequestById s j = some r) (hhr : r.hidden = true)
    (auser : Nat) (aname aloc aimg : String) (aqty : Int) (adate : Nat)
    (adescr : String) (atags : List String) (afail : FailSpec)
    (buser : Nat) (bname : String) (bqty : Int) (bneed : Nat)
    (bimg bdescr : Option String) (bfail : FailSpec)
    (duser dla euser era fuser foid guser glid : Nat)
    (gqty : Int) (now : Nat) :
    (hidL (addListing s auser aname aloc aimg aqty adate adescr atags afail).1 i ∧
     hidR (addListing s auser aname aloc aimg aqty adate adescr atags afail).1 j) ∧
    (hidL (addRequest s buser bname bqty bneed bimg bdescr bfail).1 i ∧
     hidR (addRequest s buser bname bqty bneed bimg bdescr bfail).1 j) ∧
    (hidL (deleteListing s duser dla).1 i ∧
     hidR (deleteListing s duser dla).1 j) ∧
    (hidL (deleteRequest s euser era).1 i ∧
     hidR (deleteRequest s euser era).1 j) ∧
    (hidL (acceptOffer s fuser foid).1 i ∧
     hidR (acceptOffer s fuser foid).1 j) ∧
    (hidL (claim s guser glid gqty).1 i ∧
     hidR (claim s guser glid gqty).1 j) ∧
    (hidL (sweepTick s now) i ∧
     hidR (sweepTick s now) j) :=
  ⟨⟨monoL_addListing s i l hl hh auser aname aloc aimg aqty adate adescr atags afail,
    monoR_addListing s j r hr hhr auser aname aloc aimg aqty adate adescr atags afail⟩,
   ⟨monoL_addRequest s i l hl hh buser bname bqty bneed bimg bdescr bfail,
    monoR_addRequest s j r hr hhr buser bname bqty bneed bimg bdescr bfail⟩,
   ⟨monoL_deleteListing s i l hl hh duser dla,
    monoR_deleteListing s j r hr hhr duser dla⟩,
   ⟨monoL_deleteRequest s i l hl hh euser era,
    monoR_deleteRequest s j r hr hhr euser era⟩,
   ⟨monoL_acceptOffer s i l hl hh fuser foid,
    monoR_acceptOffer s j r hr hhr fuser foid⟩,
   ⟨monoL_claim s i l hl hh guser glid gqty,
    monoR_claim s j r hr hhr guser glid gqty⟩,
   ⟨monoL_sweep s i l hl hh now,
    monoR_sweep s j r hr hhr now⟩⟩

/-! ### Concrete witness data -/

/-- A hidden Listing used in witnesses. -/
def wL1 : Listing := ⟨1, 3, "lamp", "hall", "img", 5, "old", [], true⟩

/-- A visible Listing used in witnesses. -/
def wL2 : Listing := ⟨2, 3, "rice", "hall", "img", 5, "bag", [], false⟩

/-- A hidden Request used in witnesses. -/
def wR4 : Request := ⟨4, 3, "chair", 2, none, none, true⟩

/-- A visible Request used in witnesses. -/
def wR5 : Request := ⟨5, 3, "table", 2, none, none, false⟩

/-- A well-formed witness store populated with both item kinds, expired
records for each, and two offers on the visible Request. -/
def wStore : Store :=
  ⟨[wL1, wL2], [wR4, wR5],
   [⟨6, 2, 10⟩, ⟨7, 1, 10⟩], [⟨8, 5, 10⟩, ⟨9, 4, 10⟩],
   [⟨10, 5, 11, OfferState.active⟩, ⟨12, 5, 13, OfferState.active⟩],
   [], [], 14⟩

/-- A well-formed store whose expired records reference missing items. -/
def staleStore2 : Store := ⟨[], [], [⟨1, 42, 0⟩], [⟨2, 43, 0⟩], [], [], [], 3⟩

theorem C2_witness :
    Listing.getListingById (sweepTick wStore 100) 2 =
      some { wL2 with hidden := true } ∧
    ((sweepTick wStore 100).listingExps.all (fun e => e.id != 6)) = true ∧
    Requesting.getRequestById (sweepTick wStore 100) 4 = some wR4 := by
  have h1 := ((C2_sweep_convergence wStore 100).1 ⟨6, 2, 10⟩ (by decide) wL2
    (by decide)).1 (by decide)
  have h2 := ((C2_sweep_convergence wStore 100).2 ⟨9, 4, 10⟩ (by decide) wR4
    (by decide)).2 (by decide)
  refine ⟨h1.1, ?_, h2.1⟩
  rw [List.all_eq_true]
  intro e he
  exact bne_iff_ne.mpr (h1.2 e he)

theorem C3_witness :
    hidL (claim wStore 20 2 1).1 1 ∧ hidR (acceptOffer wStore 20 10).1 4 := by
  have h := C3_hidden_monotonic wStore 1 wL1 4 wR4
    (by decide) (by decide) (by decide) (by decide)
    3 "n" "m" "i" 1 5 "d" [] ⟨false, false, none⟩
    3 "n" 1 5 none none ⟨false, false, none⟩
    3 2 3 5 20 10 20 2 1 100
  exact ⟨h.2.2.2.2.2.1.1, h.2.2.2.2.1.2⟩

/-- The witness store with the Request 4 expiration record removed, so
that deleting Request 4 exercises the record-absent branch. -/
def wStoreNoRec : Store :=
  ⟨[wL1, wL2], [wR4, wR5],
   [⟨6, 2, 10⟩, ⟨7, 1, 10⟩], [⟨8, 5, 10⟩],
   [⟨10, 5, 11, OfferState.active⟩, ⟨12, 5, 13, OfferState.active⟩],
   [], [], 14⟩

theorem C4_witness :
    ((deleteRequest wStore 3 5).2 = none ∧
     ((deleteRequest wStore 3 5).1.requestExps.all (fun e => e.item != 5)) = true ∧
     ((deleteRequest wStore 3 5).1.offers.all (fun o => o.item != 5)) = true ∧
     Requesting.getRequestById (deleteRequest wStore 3 5).1 5 = none) ∧
    (Request_Expiring.getExpireByItem wStoreNoRec 4 = none ∧
     (deleteRequest wStoreNoRec 3 4).2 = none ∧
     ((deleteRequest wStoreNoRec 3 4).1.requestExps.all (fun e => e.item != 4)) = true ∧
     ((deleteRequest wStoreNoRec 3 4).1.offers.all (fun o => o.item != 4)) = true ∧
     Requesting.getRequestById (deleteRequest wStoreNoRec 3 4).1 4 = none) := by
  have hpresent := C4_deleteRequest_cascade wStore 3 5 wR5
    (by unfold WF; decide) (by decide) (by decide)
  have habsent := C4_deleteRequest_cascade wStoreNoRec 3 4 wR4
    (by unfold WF; decide) (by decide) (by decide)
  exact ⟨hpresent, by decide, habsent⟩

theorem C5_witness :
    (acceptOffer wStore 20 10).2 = none ∧
    Requesting.getRequestById (acceptOffer wStore 20 10).1 5 =
      some { wR5 with hidden := true } ∧
    Offering.getOfferById (acceptOffer wStore 20 10).1 10 =
      some ⟨10, 5, 11, OfferState.accepted⟩ ∧
    Offering.getOfferById (acceptOffer wStore 20 10).1 12 =
      some ⟨12, 5, 13, OfferState.active⟩ :=
  C5_acceptOffer_postcondition wStore 20 10 ⟨10, 5, 11, OfferState.active⟩
    ⟨12, 5, 13, OfferState.active⟩ wR5 12
    (by decide) (by decide) (by decide) (by decide) (by decide)

theorem C7_witness :
    (addListing emptyStore 7 "a" "h" "i" 1 5 "d" ["veg"]
      ⟨false, false, some 0⟩).2 = some Err.tagFailed ∧
    Listing.getListingById
      (addListing emptyStore 7 "a" "h" "i" 1 5 "d" ["veg"]
        ⟨false, false, some 0⟩).1 0 = none ∧
    (Listing_Expiring.getExpireByItem
      (addListing emptyStore 7 "a" "h" "i" 1 5 "d" ["veg"]
        ⟨false, false, some 0⟩).1 0).isSome = true :=
  C7_amended_tag_failure_rolls_back emptyStore 7 "a" "h" "i" 1 5 "d" ["veg"] 0
    (by decide)

theorem C8_witness :
    Listing.getListingById
      (addListing wStore 3 "n" "m" "i" 1 5 "d" [] ⟨false, true, none⟩).1 14 = none ∧
    ((addListing wStore 3 "n" "m" "i" 1 5 "d" [] ⟨false, true, none⟩).1.listingExps.all
      (fun e => (Listing.getListingById
        (addListing wStore 3 "n" "m" "i" 1 5 "d" [] ⟨false, true, none⟩).1
          e.item).isSome)) = true ∧
    Requesting.getRequestById
      (addRequest wStore 3 "n" 1 5 none none ⟨true, false, none⟩).1 14 = none ∧
    ((addRequest wStore 3 "n" 1 5 none none ⟨true, false, none⟩).1.requestExps.all
      (fun e => (Requesting.getRequestById
        (addRequest wStore 3 "n" 1 5 none none ⟨true, false, none⟩).1
          e.item).isSome)) = true := by
  have h := C8_amended_no_orphan_without_tag_failure wStore 3 "n" "m" "i" 1 5 "d" []
    false true "n" 1 5 none none ⟨true, false, none⟩
    (by unfold WF; decide) (by decide) (by decide)
  exact ⟨(h.1 (by decide)).1, (h.1 (by decide)).2,
    (h.2 (by decide)).1, (h.2 (by decide)).2⟩

theorem C9_witness :
    (⟨1, 42, 0⟩ : ExpireDoc) ∈ (sweepTick staleStore2 100).listingExps ∧
    (⟨2, 43, 0⟩ : ExpireDoc) ∈ (sweepTick staleStore2 100).requestExps := by
  have h := C9_amended_stale_record_left staleStore2 100 (by unfold WF; decide)
  exact ⟨h.1 ⟨1, 42, 0⟩ (by decide) (by decide) (by decide),
    h.2 ⟨2, 43, 0⟩ (by decide) (by decide) (by decide)⟩

theorem C10_witness :
    (claim wStore 20 2 1).2 = ClaimOutcome.created ⟨14, 2, 20, 1⟩ ∧
    (⟨14, 2, 20, 1⟩ : ClaimDoc) ∈ (claim wStore 20 2 1).1.claims ∧
    Listing.getListingById (claim wStore 20 2 1).1 2 =
      some { wL2 with quantity := 4 } ∧
    (claim wStore 20 2 99).1 = wStore ∧
    (claim wStore 20 2 99).2 = ClaimOutcome.insufficient := by
  have h1 := (C10_claim_behaviour wStore 20 2 1 wL2 (by decide)).1 (by decide)
  have h2 := (C10_claim_behaviour wStore 20 2 99 wL2 (by decide)).2 (by decide)
  refine ⟨h1.1, h1.2.1, ?_, h2.1, h2.2⟩
  rw [h1.2.2]
  decide
